import Mathlib

/-!
# Portfolio page scripts: a shallow embedding

The two scripts of the repository are embedded as pure functions over explicit
state records:

* `src/js/theme-switcher.js` (the `ThemeSwitcher` module) in namespace `ThemeSwitcher`;
* `src/script.js` (the `DOMContentLoaded` handler) in namespace `Script`.

Browser primitives are modelled, not taken from the source:

* `localStorage` is a total map from keys to optional strings (`Storage`); a
  `getItem` that throws is modelled where the source reads storage inside `try`
  at load time (`StorageRead`);
* JavaScript numbers that the code uses as indices are `Option Int`, `none`
  standing for `NaN`; index arithmetic stays far below 2^53, where doubles are
  exact;
* an element the source dereferences without a null check has a presence
  flag, and a handler that reaches such a dereference on a missing element
  ends there with an exception (`Outcome`);
* `String.prototype.trim` and `parseInt(_, 10)` follow ECMAScript on the
  white space set `StrWhiteSpaceChar`;
* timers (`setTimeout` / `clearTimeout`) are a table of pending entries with a
  due time on a discrete millisecond clock;
* `JSON.stringify` / `JSON.parse` are parameters (`JsonApi`).
-/

namespace Js

/-- ECMAScript `StrWhiteSpaceChar`: white space and line terminators, the set
stripped by `String.prototype.trim` and skipped by `parseInt`. -/
def isStrWhiteSpaceChar (c : Char) : Bool :=
  let n := c.toNat
  n = 0x09 || n = 0x0A || n = 0x0B || n = 0x0C || n = 0x0D || n = 0x20 ||
  n = 0xA0 || n = 0x1680 || (0x2000 ≤ n && n ≤ 0x200A) || n = 0x2028 ||
  n = 0x2029 || n = 0x202F || n = 0x205F || n = 0x3000 || n = 0xFEFF

/-- The characters of `s.trim()`. -/
def trimChars (cs : List Char) : List Char :=
  ((cs.dropWhile isStrWhiteSpaceChar).reverse.dropWhile isStrWhiteSpaceChar).reverse

/-- JavaScript `s.trim()`. -/
def trim (s : String) : String :=
  String.mk (trimChars s.data)

/-- Truthiness of a JavaScript string: only the empty string is falsy. -/
def truthy (s : String) : Bool :=
  s != ""

/-- Truthiness of a value that is `null` or a string (the result of `getItem`). -/
def truthyOpt : Option String → Bool
  | none => false
  | some s => truthy s

/-- The value of a run of decimal digits, most significant first. -/
def digitsValue (ds : List Char) : Nat :=
  ds.foldl (fun acc c => 10 * acc + (c.toNat - 48)) 0

/-- JavaScript `parseInt(s, 10)`: skip leading white space, read an optional
sign, then the longest run of decimal digits; `none` is `NaN` (no digit). The
result is the exact integer: a run too long for a double rounds to a double at
least as large as any array length, so it compares with a length as the exact
value does, and `-0` counts as 0. -/
def parseInt10 (s : String) : Option Int :=
  let cs := s.data.dropWhile isStrWhiteSpaceChar
  let negative := cs.head? == some '-'
  let body := match cs with
    | '-' :: rest => rest
    | '+' :: rest => rest
    | other => other
  let ds := body.takeWhile Char.isDigit
  if ds.isEmpty then none
  else some (if negative then -(digitsValue ds : Int) else (digitsValue ds : Int))

/-- The ten decimal digit characters. -/
def decimalChars : List Char :=
  ['0', '1', '2', '3', '4', '5', '6', '7', '8', '9']

/-- JavaScript `String(n)` for a non-negative integer `n`. -/
def numberToString (n : Nat) : String :=
  Nat.repr n

/-- JavaScript `a % n` for an integer `a` and an array length `n`: the
remainder has the sign of the dividend, and `% 0` is `NaN`. -/
def rem (a : Int) (n : Nat) : Option Int :=
  if n = 0 then none else some (Int.tmod a (n : Int))

end Js

/-- The browser's `localStorage`, as a map from keys to stored strings. -/
abbrev Storage := String → Option String

namespace Storage

/-- Models `localStorage.getItem(key)`. -/
def getItem (st : Storage) (key : String) : Option String :=
  st key

/-- Models `localStorage.setItem(key, value)`. -/
def setItem (st : Storage) (key value : String) : Storage :=
  fun k => if k = key then some value else st k

/-- Models `localStorage.removeItem(key)`. -/
def removeItem (st : Storage) (key : String) : Storage :=
  fun k => if k = key then none else st k

/-- The empty store. -/
def empty : Storage :=
  fun _ => none

end Storage

/-- What a guarded `localStorage.getItem(key)` produced: an exception, or the
stored value (`none` for `null`). -/
inductive StorageRead where
  | throws
  | value (v : Option String)
  deriving DecidableEq, Repr

/-- The result of running a handler: the state it left behind and whether it
ended by raising an exception. -/
structure Outcome (σ : Type) where
  state : σ
  threw : Bool

namespace Outcome

/-- A handler that ran to its end. -/
def done {σ : Type} (s : σ) : Outcome σ :=
  ⟨s, false⟩

/-- A handler cut short by an uncaught exception, in the state reached so far. -/
def raise {σ : Type} (s : σ) : Outcome σ :=
  ⟨s, true⟩

/-- Statement sequencing: the next statement runs only if nothing was thrown. -/
def andThen {σ : Type} (o : Outcome σ) (next : σ → Outcome σ) : Outcome σ :=
  if o.threw then o else next o.state

end Outcome

namespace Script

/-! ## Gallery / lightbox (script.js, section 10) -/

/-- One `.gallery img` element: its `src`, its `alt` and its `data-caption`
attribute (`none` when the attribute is missing). -/
structure GalleryImg where
  src : String
  alt : String
  caption : Option String
  deriving DecidableEq, Repr

/-- The fixed part of the gallery markup: the thumbnails, and which of the
lightbox elements looked up at load time exist. -/
structure GalleryPage where
  galleryImgs : List GalleryImg
  hasLightbox : Bool
  hasLbImg : Bool
  hasLbCaption : Bool
  hasLbClose : Bool
  hasLbPrev : Bool
  hasLbNext : Bool

/-- The mutable gallery state: the closure variable `currentIndex`, the
`open` class and `aria-hidden` attribute of the lightbox, the displayed image
and caption, and the store. -/
structure GalleryState where
  currentIndex : Option Int
  lightboxOpen : Bool
  ariaHidden : Option String
  lbImgSrc : String
  lbImgAlt : String
  lbCaptionText : String
  storage : Storage

/-- Array element access `xs[index]`: defined only for an integer index inside
the array; the position found is returned with the element. -/
def arrayGet {α : Type} (xs : List α) (index : Option Int) : Option (Nat × α) :=
  match index with
  | some (Int.ofNat i) => xs[i]?.map (fun x => (i, x))
  | _ => none

/-- The body of the `try` block that restores `currentIndex` at load time. -/
def restoreBody (read : StorageRead) (length : Nat) (currentIndex : Option Int) :
    Outcome (Option Int) :=
  match read with
  | .throws => Outcome.raise currentIndex
  | .value none => Outcome.done currentIndex
  | .value (some savedGallery) =>
    match Js.parseInt10 savedGallery with
    | none => Outcome.done currentIndex
    | some si =>
      if 0 ≤ si ∧ si < (length : Int) then Outcome.done (some si)
      else Outcome.done currentIndex

/-- The load-time restore: `let currentIndex = 0`, then the guarded block, whose
`catch` swallows any exception. -/
def restoreGalleryIndex (read : StorageRead) (length : Nat) : Outcome (Option Int) :=
  Outcome.done (restoreBody read length (some 0)).state

/-- Models `openLightbox(index)`. -/
def openLightbox (page : GalleryPage) (index : Option Int) (s : GalleryState) :
    Outcome GalleryState :=
  match arrayGet page.galleryImgs index with
  | none => Outcome.done s
  | some (i, img) =>
    if !page.hasLbImg then Outcome.raise s
    else
      let s1 := { s with lbImgSrc := img.src, lbImgAlt := img.alt }
      if !page.hasLbCaption then Outcome.raise s1
      else
        let s2 := { s1 with lbCaptionText := img.caption.getD "" }
        if !page.hasLightbox then Outcome.raise s2
        else
          let s3 := { s2 with lightboxOpen := true, ariaHidden := some "false",
                              currentIndex := some (i : Int) }
          Outcome.done
            { s3 with storage := s3.storage.setItem "gallery-last" (Js.numberToString i) }

/-- Models `closeLightbox()`. -/
def closeLightbox (page : GalleryPage) (s : GalleryState) : Outcome GalleryState :=
  if !page.hasLightbox then Outcome.raise s
  else
    let s1 := { s with lightboxOpen := false, ariaHidden := some "true" }
    if !page.hasLbImg then Outcome.raise s1
    else
      let s2 := { s1 with lbImgSrc := "" }
      if !page.hasLbCaption then Outcome.raise s2
      else Outcome.done { s2 with lbCaptionText := "" }

/-- Models `showNext(dir)`: the assignment to `currentIndex`, then
`openLightbox(currentIndex)`. -/
def showNext (page : GalleryPage) (dir : Int) (s : GalleryState) : Outcome GalleryState :=
  let next : Option Int :=
    match s.currentIndex with
    | none => none
    | some c => Js.rem (c + dir + (page.galleryImgs.length : Int)) page.galleryImgs.length
  let s1 := { s with currentIndex := next }
  openLightbox page next s1

/-- The user events the gallery listens to. -/
inductive GalleryEvent where
  | thumbClick (i : Nat)
  | closeClick
  | prevClick
  | nextClick
  | lightboxClick (targetIsLightbox : Bool)
  | keydown (key : String)
  deriving DecidableEq, Repr

/-- The `keydown` listener on `window`. -/
def onKeydown (page : GalleryPage) (key : String) (s : GalleryState) : Outcome GalleryState :=
  if !page.hasLightbox then Outcome.raise s
  else if !s.lightboxOpen then Outcome.done s
  else
    ((if key = "Escape" then closeLightbox page s else Outcome.done s).andThen
      (fun s1 => if key = "ArrowRight" then showNext page 1 s1 else Outcome.done s1)).andThen
      (fun s2 => if key = "ArrowLeft" then showNext page (-1) s2 else Outcome.done s2)

/-- The listeners wired at the end of section 10; an event on an element that
does not exist, or has no listener, changes nothing. -/
def handleGallery (page : GalleryPage) (ev : GalleryEvent) (s : GalleryState) :
    Outcome GalleryState :=
  match ev with
  | .thumbClick i =>
    if i < page.galleryImgs.length then openLightbox page (some (i : Int)) s else Outcome.done s
  | .closeClick => if page.hasLbClose then closeLightbox page s else Outcome.done s
  | .prevClick => if page.hasLbPrev then showNext page (-1) s else Outcome.done s
  | .nextClick => if page.hasLbNext then showNext page 1 s else Outcome.done s
  | .lightboxClick targetIsLightbox =>
    if page.hasLightbox && targetIsLightbox then closeLightbox page s else Outcome.done s
  | .keydown key => onKeydown page key s

/-- The state after a sequence of events; an exception ends only the handler
that raised it. -/
def runGallery (page : GalleryPage) (evs : List GalleryEvent) (s : GalleryState) :
    GalleryState :=
  evs.foldl (fun st ev => (handleGallery page ev st).state) s

/-- The gallery state once the page has loaded: the markup state `dom` with
`currentIndex` restored from the store. -/
def loadGallery (page : GalleryPage) (read : StorageRead) (dom : GalleryState) :
    GalleryState :=
  { dom with currentIndex := (restoreGalleryIndex read page.galleryImgs.length).state }

/-- Whether a value of `currentIndex` is an integer in `[0, k)`. -/
def validIndex (k : Nat) : Option Int → Bool
  | some v => decide (0 ≤ v) && decide (v < (k : Int))
  | none => false

/-- A gallery of three images with every lightbox element present. -/
def gallery3 : GalleryPage :=
  { galleryImgs := [⟨"one.jpg", "One", some "First"⟩, ⟨"two.jpg", "Two", none⟩,
                    ⟨"three.jpg", "", some "Third"⟩],
    hasLightbox := true, hasLbImg := true, hasLbCaption := true,
    hasLbClose := true, hasLbPrev := true, hasLbNext := true }

/-- The gallery state of a freshly loaded page with an empty store. -/
def galleryFresh : GalleryState :=
  { currentIndex := some 0, lightboxOpen := false, ariaHidden := some "true",
    lbImgSrc := "", lbImgAlt := "", lbCaptionText := "", storage := Storage.empty }

/-! ## Project-card selection (script.js, section 11) -/

/-- An element of a parsed JSON array, as far as `Array.prototype.includes`
with a string or an index can tell elements apart. -/
inductive JsonElem where
  | str (s : String)
  | num (n : Int)
  | other
  deriving DecidableEq, Repr

/-- The value `JSON.parse` returned: an array, or anything else. -/
inductive ParsedJson where
  | array (elems : List JsonElem)
  | nonArray
  deriving DecidableEq, Repr

/-- The browser's `JSON` object, restricted to the calls the script makes:
`JSON.stringify` on an array of strings and on a draft record, and
`JSON.parse`, where `none` stands for a thrown `SyntaxError`. -/
structure JsonApi where
  stringifyStrings : List String → String
  stringifyDraft : String → String → String → String
  parse : String → Option ParsedJson

/-- One `.project-card` element: whether its class list holds `selected` and
`hovered`. -/
structure ProjectCard where
  selected : Bool
  hovered : Bool
  deriving DecidableEq, Repr

/-- The storage key `projectsStorageKey`. -/
def projectsStorageKey : String :=
  "projects-selected"

/-- The array built by the `forEach` of `saveSelectedProjects`, for the cards
from position `idx` on. -/
def selectedIndices (idx : Nat) : List ProjectCard → List String
  | [] => []
  | card :: rest =>
    if card.selected then Js.numberToString idx :: selectedIndices (idx + 1) rest
    else selectedIndices (idx + 1) rest

/-- Models `saveSelectedProjects()`. -/
def saveSelectedProjects (json : JsonApi) (projectCards : List ProjectCard)
    (st : Storage) : Storage :=
  st.setItem projectsStorageKey (json.stringifyStrings (selectedIndices 0 projectCards))

/-- The `forEach` of `loadSelectedProjects`, for the cards from position `idx` on. -/
def markSelected (arr : List JsonElem) (idx : Nat) : List ProjectCard → List ProjectCard
  | [] => []
  | card :: rest =>
    (if arr.contains (JsonElem.str (Js.numberToString idx)) || arr.contains (JsonElem.num idx)
      then { card with selected := true } else card) :: markSelected arr (idx + 1) rest

/-- Models `loadSelectedProjects()`; a throwing `JSON.parse` is caught and
leaves the cards as they are. -/
def loadSelectedProjects (json : JsonApi) (projectCards : List ProjectCard)
    (st : Storage) : List ProjectCard :=
  match st.getItem projectsStorageKey with
  | none => projectCards
  | some raw =>
    if !Js.truthy raw then projectCards
    else
      match json.parse raw with
      | none => projectCards
      | some ParsedJson.nonArray => projectCards
      | some (ParsedJson.array arr) => markSelected arr 0 projectCards

/-! ## Contact form (script.js, section 8) -/

/-- The values `FormData.get` returns for the controls named `name`, `email`
and `message` (`none` when the form has no such control). -/
structure FormValues where
  name : Option String
  email : Option String
  message : Option String
  deriving DecidableEq, Repr

/-- The fixed part of the contact markup: whether `#cf-status` exists, and the
default values `contactForm.reset()` restores. -/
structure ContactPage where
  hasStatus : Bool
  defaults : FormValues

/-- The contact form state: the controls, the style and text of the status
paragraph, the store, and the delays of the send timers scheduled so far. -/
structure ContactState where
  form : FormValues
  statusDisplay : Option String
  statusColor : Option String
  statusText : String
  storage : Storage
  sendTimers : List Nat

/-- The `submit` listener of the contact form. -/
def onSubmit (page : ContactPage) (s : ContactState) : Outcome ContactState :=
  let name := Js.trim (s.form.name.getD "")
  let email := Js.trim (s.form.email.getD "")
  let message := Js.trim (s.form.message.getD "")
  if !Js.truthy name || !Js.truthy email || !Js.truthy message then
    if !page.hasStatus then Outcome.raise s
    else
      Outcome.done
        { s with statusDisplay := some "block", statusColor := some "crimson",
                 statusText := "Please fill in all fields." }
  else
    if !page.hasStatus then Outcome.raise s
    else
      Outcome.done
        { s with statusDisplay := some "block", statusColor := some "#333",
                 statusText := "Sending message...",
                 sendTimers := s.sendTimers ++ [900] }

/-- The callback handed to `setTimeout` by the submit listener. -/
def sendDone (page : ContactPage) (s : ContactState) : ContactState :=
  { s with statusColor := some "green",
           statusText := "Message sent — thank you! (simulated)",
           form := page.defaults,
           storage := s.storage.removeItem "contact-draft" }

/-- The browser runs the oldest pending send timer, if there is one. -/
def fireSendTimer (page : ContactPage) (s : ContactState) : ContactState :=
  match s.sendTimers with
  | [] => s
  | _ :: rest => sendDone page { s with sendTimers := rest }

/-! ## Draft autosave (script.js, "autosave contact draft") -/

/-- The three draft fields. -/
inductive DraftField where
  | name
  | email
  | message
  deriving DecidableEq, Repr

/-- A pending `setTimeout` entry: its id and the time it is due. -/
structure PendingTimer where
  id : Nat
  due : Nat
  deriving DecidableEq, Repr

/-- The autosave state: the value of each field element (`none` when the
element does not exist), the variable `t` of the `debounce` closure, the
browser's table of pending timers and its id counter, the clock, the store,
and a log of the `setItem` calls made by `saveDraft` (time and text). -/
structure DraftState where
  nameField : Option String
  emailField : Option String
  messageField : Option String
  t : Option Nat
  timers : List PendingTimer
  nextTimerId : Nat
  now : Nat
  storage : Storage
  writes : List (Nat × String)

/-- The storage key `draftKey`. -/
def draftKey : String :=
  "contact-draft"

/-- The text `saveDraft` writes in state `s`. -/
def draftText (json : JsonApi) (s : DraftState) : String :=
  json.stringifyDraft (s.nameField.getD "") (s.emailField.getD "") (s.messageField.getD "")

/-- Models `saveDraft()`. -/
def saveDraft (json : JsonApi) (s : DraftState) : DraftState :=
  { s with storage := s.storage.setItem draftKey (draftText json s),
           writes := s.writes ++ [(s.now, draftText json s)] }

/-- Models `clearTimeout(t)`: `undefined`, or the id of a timer that already
ran, cancels nothing. -/
def clearTimeout (t : Option Nat) (timers : List PendingTimer) : List PendingTimer :=
  match t with
  | none => timers
  | some id => timers.filter (fun tm => tm.id != id)

/-- The function returned by `debounce(saveDraft, wait)`:
`clearTimeout(t); t = setTimeout(..., wait)`. -/
def debounce (wait : Nat) (s : DraftState) : DraftState :=
  { s with timers := clearTimeout s.t s.timers ++ [⟨s.nextTimerId, s.now + wait⟩],
           t := some s.nextTimerId,
           nextTimerId := s.nextTimerId + 1 }

/-- Models `saveDraftDebounced = debounce(saveDraft, 300)`. -/
def saveDraftDebounced (s : DraftState) : DraftState :=
  debounce 300 s

/-- The browser runs one due timer: the entry leaves the table, the clock
stands at its due time, and the callback `saveDraft` runs. -/
def fireTimer (json : JsonApi) (tm : PendingTimer) (s : DraftState) : DraftState :=
  saveDraft json
    { s with timers := s.timers.filter (fun x => x.id != tm.id), now := max s.now tm.due }

/-- Time passes until `time`: every timer due by then runs, in table order
(all timers share one delay, so that is the order in which they are due). -/
def advanceTo (json : JsonApi) (time : Nat) (s : DraftState) : DraftState :=
  let s1 := (s.timers.filter (fun tm => tm.due ≤ time)).foldl (fun st tm => fireTimer json tm st) s
  { s1 with now := max s1.now time }

/-- The value of a field element. -/
def fieldValue (s : DraftState) : DraftField → Option String
  | .name => s.nameField
  | .email => s.emailField
  | .message => s.messageField

/-- The user's edit sets the value of a field element. -/
def setField (f : DraftField) (v : String) (s : DraftState) : DraftState :=
  match f with
  | .name => { s with nameField := some v }
  | .email => { s with emailField := some v }
  | .message => { s with messageField := some v }

/-- What happens to the autosave state: an `input` event on a field at a given
time, carrying the field's new value, or the mere passing of time. -/
inductive DraftEvent where
  | input (time : Nat) (field : DraftField) (value : String)
  | tick (time : Nat)
  deriving DecidableEq, Repr

/-- One event: timers due before it run first; an `input` event then updates
the field and calls `saveDraftDebounced`, which is attached to existing fields
only. -/
def stepDraft (json : JsonApi) (ev : DraftEvent) (s : DraftState) : DraftState :=
  match ev with
  | .tick time => advanceTo json time s
  | .input time field value =>
    let s1 := advanceTo json time s
    if (fieldValue s1 field).isSome then saveDraftDebounced (setField field value s1) else s1

/-- The state after a sequence of events. -/
def runDraft (json : JsonApi) (evs : List DraftEvent) (s : DraftState) : DraftState :=
  evs.foldl (fun st ev => stepDraft json ev st) s

/-- Whether an event is an `input` event. -/
def DraftEvent.isInput : DraftEvent → Bool
  | .input _ _ _ => true
  | .tick _ => false

/-- The time of an event. -/
def DraftEvent.time : DraftEvent → Nat
  | .input time _ _ => time
  | .tick time => time

end Script

/-! ## Theme: the shared document state -/

/-- A listener attached to the `click` event of `#theme-toggle`: the module's
`toggle`, or the page script's arrow function. -/
inductive ClickListener where
  | switcherToggle
  | pageToggle
  deriving DecidableEq, Repr

/-- The `#theme-toggle` element: its text, its `aria-pressed` attribute and its
click listeners in the order they were added. -/
structure ToggleButton where
  textContent : String
  ariaPressed : Option String
  clickListeners : List ClickListener
  deriving DecidableEq, Repr

/-- The part of the document both theme implementations act on: the `dark` class
on the root element, the toggle control (`none` when absent), the store, and
whether the module's listener is attached to the colour-scheme media query. -/
structure ThemeDoc where
  rootDark : Bool
  themeToggle : Option ToggleButton
  storage : Storage
  systemListener : Bool

namespace ThemeDoc

/-- Assignment to `themeToggle.textContent`, guarded by `if (themeToggle)`. -/
def setToggleText (text : String) (d : ThemeDoc) : ThemeDoc :=
  { d with themeToggle := d.themeToggle.map (fun b => { b with textContent := text }) }

/-- The call `themeToggle.setAttribute('aria-pressed', v)`, guarded by `if (themeToggle)`. -/
def setTogglePressed (v : Bool) (d : ThemeDoc) : ThemeDoc :=
  { d with themeToggle :=
      d.themeToggle.map (fun b => { b with ariaPressed := some (if v then "true" else "false") }) }

end ThemeDoc

namespace ThemeSwitcher

/-- The constant `THEME_KEY`. -/
def THEME_KEY : String :=
  "portfolio-theme"

/-- Models `setTheme(theme)`. -/
def setTheme (theme : String) (d : ThemeDoc) : ThemeDoc :=
  let d1 :=
    if theme = "dark" then ({ d with rootDark := true } : ThemeDoc).setToggleText "☀️"
    else ({ d with rootDark := false } : ThemeDoc).setToggleText "🌙"
  { d1 with storage := d1.storage.setItem THEME_KEY theme }

/-- Models `toggle()`. -/
def toggle (d : ThemeDoc) : ThemeDoc :=
  let isDark := d.rootDark
  setTheme (if isDark then "light" else "dark") d

/-- Models `loadTheme()`; `matchMedia` is `none` when `window.matchMedia` is
undefined, else whether the system prefers dark. -/
def loadTheme (matchMedia : Option Bool) (d : ThemeDoc) : ThemeDoc :=
  match d.storage.getItem THEME_KEY with
  | some saved =>
    if Js.truthy saved then setTheme saved d
    else if matchMedia = some true then setTheme "dark" d
    else setTheme "light" d
  | none =>
    if matchMedia = some true then setTheme "dark" d
    else setTheme "light" d

/-- Models `handleSystemThemeChange(e)`, with `isMatch` the event's `e.matches`. -/
def handleSystemThemeChange (isMatch : Bool) (d : ThemeDoc) : ThemeDoc :=
  if !Js.truthyOpt (d.storage.getItem THEME_KEY) then
    setTheme (if isMatch then "dark" else "light") d
  else d

/-- Models `init()`: `addEventListener` ignores a listener that is already
attached, and calling an undefined `window.matchMedia` raises. -/
def init (matchMedia : Option Bool) (d : ThemeDoc) : Outcome ThemeDoc :=
  match d.themeToggle with
  | none => Outcome.done d
  | some _ =>
    let d1 := loadTheme matchMedia d
    let d2 : ThemeDoc :=
      { d1 with themeToggle := d1.themeToggle.map (fun b =>
          if b.clickListeners.contains ClickListener.switcherToggle then b
          else { b with clickListeners := b.clickListeners ++ [ClickListener.switcherToggle] }) }
    match matchMedia with
    | none => Outcome.raise d2
    | some _ => Outcome.done { d2 with systemListener := true }

/-- Models the exported `isDark()`. -/
def isDark (d : ThemeDoc) : Bool :=
  d.rootDark

end ThemeSwitcher

namespace Script

/-! ## Theme toggle of the page script (script.js, section 9) -/

/-- Models `applyTheme(t)`. -/
def applyTheme (t : String) (d : ThemeDoc) : ThemeDoc :=
  let d1 : ThemeDoc := if t = "dark" then { d with rootDark := true } else { d with rootDark := false }
  let d2 := d1.setToggleText (if t = "dark" then "☀️" else "🌙")
  d2.setTogglePressed (t = "dark")

/-- The load of the saved theme at start-up (`if (saved) ... else ...`). -/
def loadSavedTheme (matchMedia : Option Bool) (d : ThemeDoc) : ThemeDoc :=
  match d.storage.getItem "site-theme" with
  | some saved =>
    if Js.truthy saved then applyTheme saved d
    else applyTheme (if matchMedia = some true then "dark" else "light") d
  | none => applyTheme (if matchMedia = some true then "dark" else "light") d

/-- The `click` listener the page script attaches to `#theme-toggle`. -/
def themeToggleClick (d : ThemeDoc) : ThemeDoc :=
  let isDark := d.rootDark
  let next := if isDark then "light" else "dark"
  let d1 := applyTheme next d
  { d1 with storage := d1.storage.setItem "site-theme" next }

/-- The page script wiring its listener: `if (themeToggle) addEventListener(...)`. -/
def wireThemeToggle (d : ThemeDoc) : ThemeDoc :=
  { d with themeToggle := d.themeToggle.map (fun b =>
      { b with clickListeners := b.clickListeners ++ [ClickListener.pageToggle] }) }

end Script

/-- Runs one click listener of the toggle control. -/
def ClickListener.run : ClickListener → ThemeDoc → ThemeDoc
  | .switcherToggle => ThemeSwitcher.toggle
  | .pageToggle => Script.themeToggleClick

/-- A click on `#theme-toggle`: its listeners run in the order they were added. -/
def clickThemeToggle (d : ThemeDoc) : ThemeDoc :=
  match d.themeToggle with
  | none => d
  | some b => b.clickListeners.foldl (fun acc l => l.run acc) d

/-- What can happen to the theme document: the module's exported `toggle()` and
`setTheme(mode)` (also reached through its click listener), a change of the
system colour scheme, a call of `init()`, and a click handled by the page
script's own listener. -/
inductive SwitcherEvent where
  | toggle
  | setTheme (mode : String)
  | systemChange (isMatch : Bool)
  | init (matchMedia : Option Bool)
  | pageClick
  deriving DecidableEq, Repr

/-- The code run for one event. -/
def SwitcherEvent.run : SwitcherEvent → ThemeDoc → ThemeDoc
  | .toggle => ThemeSwitcher.toggle
  | .setTheme mode => ThemeSwitcher.setTheme mode
  | .systemChange isMatch => ThemeSwitcher.handleSystemThemeChange isMatch
  | .init matchMedia => fun d => (ThemeSwitcher.init matchMedia d).state
  | .pageClick => Script.themeToggleClick

/-- Whether an event leaves a truthy value under the theme key when one was
there: every event does, except `setTheme` with the empty string. -/
def SwitcherEvent.keepsValue : SwitcherEvent → Bool
  | .setTheme mode => Js.truthy mode
  | _ => true

namespace Spec

/-- The restore as the specification words it: the stored value is kept when
it is the decimal text of an index below `k`, and anything else gives 0. -/
def restoredIndex (stored : Option String) (k : Nat) : Nat :=
  match stored with
  | none => 0
  | some s => ((List.range k).find? (fun i => Js.numberToString i == s)).getD 0

end Spec

/-- The state after a sequence of events on the theme document. -/
def runSwitcher (evs : List SwitcherEvent) (d : ThemeDoc) : ThemeDoc :=
  evs.foldl (fun acc ev => ev.run acc) d

/-- The theme name the scripts persist for a state of the `dark` class. -/
def themeName (dark : Bool) : String :=
  if dark then "dark" else "light"

/-- Whether the module's guard `localStorage.getItem(THEME_KEY)` is truthy. -/
def themePinned (d : ThemeDoc) : Bool :=
  Js.truthyOpt (d.storage.getItem ThemeSwitcher.THEME_KEY)

namespace Script

/-- The autosave state of a freshly loaded page: no timer was ever set. -/
def draftFresh (nameField emailField messageField : Option String) (storage : Storage) :
    DraftState :=
  { nameField := nameField, emailField := emailField, messageField := messageField,
    t := none, timers := [], nextTimerId := 0, now := 0, storage := storage, writes := [] }

/-- The timer table holds at most one entry, and it is the one `t` names. -/
def atMostOnePending (s : DraftState) : Bool :=
  match s.timers with
  | [] => true
  | [tm] => s.t == some tm.id
  | _ => false

/-- Whether an event comes from an element that exists. -/
def targetsExisting (s : DraftState) : DraftEvent → Bool
  | .input _ field _ => (fieldValue s field).isSome
  | .tick _ => true

/-- A burst after an event at time `prev`: only `input` events, in time order,
each less than `wait` after the one before. -/
def quickBurst (wait prev : Nat) : List DraftEvent → Bool
  | [] => true
  | ev :: rest =>
    ev.isInput && decide (prev ≤ ev.time) && decide (ev.time < prev + wait) &&
      quickBurst wait ev.time rest

/-- The time of the last event of a burst that follows an event at time `prev`. -/
def burstEnd (prev : Nat) : List DraftEvent → Nat
  | [] => prev
  | ev :: rest => burstEnd ev.time rest

/-- The number of `input` events in a sequence. -/
def inputCount (evs : List DraftEvent) : Nat :=
  (evs.filter DraftEvent.isInput).length

end Script

/-! ## Concrete inputs -/

namespace Sample

/-- Progress of the sample reader through the text of a JSON array. -/
inductive ReadState where
  | start
  | wantElem (acc : List Script.JsonElem)
  | inString (acc : List Script.JsonElem) (cur : List Char)
  | afterElem (acc : List Script.JsonElem)
  | finished (acc : List Script.JsonElem)
  | failed
  deriving DecidableEq, Repr

/-- One character of the sample reader. -/
def readChar (st : ReadState) (c : Char) : ReadState :=
  match st with
  | .start => if c = '[' then .wantElem [] else .failed
  | .wantElem acc =>
    if c = '"' then .inString acc []
    else if c = ']' && acc.isEmpty then .finished acc
    else .failed
  | .inString acc cur =>
    if c = '"' then .afterElem (acc ++ [Script.JsonElem.str (String.mk cur)])
    else if c = '\\' then .failed
    else .inString acc (cur ++ [c])
  | .afterElem acc =>
    if c = ',' then .wantElem acc
    else if c = ']' then .finished acc
    else .failed
  | .finished _ => .failed
  | .failed => .failed

/-- A reader for JSON arrays of string literals without escapes or white
space; any other text is reported as a syntax error. -/
def parseStrings (text : String) : Option Script.ParsedJson :=
  match text.data.foldl readChar .start with
  | .finished acc => some (Script.ParsedJson.array acc)
  | _ => none

/-- The JSON text of an array of strings that need no escaping. -/
def stringifyStrings (xs : List String) : String :=
  "[" ++ ",".intercalate (xs.map (fun x => "\"" ++ x ++ "\"")) ++ "]"

/-- The JSON text of a draft whose values need no escaping. -/
def stringifyDraft (name email message : String) : String :=
  "\x7b\"name\":\"" ++ name ++ "\",\"email\":\"" ++ email ++ "\",\"message\":\"" ++ message
    ++ "\"\x7d"

/-- A `JSON` object good for digit strings and plain drafts. -/
def json : Script.JsonApi :=
  { stringifyStrings := stringifyStrings, stringifyDraft := stringifyDraft,
    parse := parseStrings }

/-- Three project cards, the first and the third selected. -/
def cards : List Script.ProjectCard :=
  [⟨true, false⟩, ⟨false, true⟩, ⟨true, false⟩]

/-- The same three cards on a freshly loaded page. -/
def freshCards : List Script.ProjectCard :=
  [⟨false, false⟩, ⟨false, false⟩, ⟨false, false⟩]

/-- A light document without the toggle control and with an empty store. -/
def bareDoc : ThemeDoc :=
  { rootDark := false, themeToggle := none, storage := Storage.empty, systemListener := false }

/-- A light document with a toggle control without listeners and an empty store. -/
def controlDoc : ThemeDoc :=
  { rootDark := false, themeToggle := some ⟨"🌙", none, []⟩,
    storage := Storage.empty, systemListener := false }

/-- A light document with a toggle control that carries both click listeners. -/
def bothDoc : ThemeDoc :=
  { rootDark := false,
    themeToggle := some ⟨"🌙", none, [ClickListener.switcherToggle, ClickListener.pageToggle]⟩,
    storage := Storage.empty, systemListener := true }

/-- A contact page with a status paragraph and empty default values. -/
def contactPage : Script.ContactPage :=
  { hasStatus := true, defaults := ⟨some "", some "", some ""⟩ }

/-- A contact form filled in with the values of the specification's scenario. -/
def contactFilled : Script.ContactState :=
  { form := ⟨some "Ann", some "a@x.com", some "hi"⟩, statusDisplay := none,
    statusColor := none, statusText := "",
    storage := Storage.empty.setItem "contact-draft" "saved", sendTimers := [] }

end Sample

/-! ## Decimal text of indices -/

namespace Js

theorem digitChar_mem (m : Nat) (h : m < 10) : Nat.digitChar m ∈ decimalChars := by
  interval_cases m <;> decide

theorem digitChar_value (m : Nat) (h : m < 10) : (Nat.digitChar m).toNat - 48 = m := by
  interval_cases m <;> decide

theorem decimalChars_facts :
    ∀ c ∈ decimalChars, c.isDigit = true ∧ isStrWhiteSpaceChar c = false ∧ c ≠ '-' ∧ c ≠ '+' := by
  decide

theorem digitsValue_append_single (l : List Char) (c : Char) :
    digitsValue (l ++ [c]) = 10 * digitsValue l + (c.toNat - 48) := by
  simp [digitsValue, List.foldl_append]

theorem toDigitsCore_append (fuel : Nat) :
    ∀ (n : Nat) (ds : List Char),
      Nat.toDigitsCore 10 fuel n ds = Nat.toDigitsCore 10 fuel n [] ++ ds := by
  induction fuel with
  | zero => intro n ds; simp [Nat.toDigitsCore]
  | succ fuel ih =>
    intro n ds
    simp only [Nat.toDigitsCore]
    by_cases h : n / 10 = 0
    · simp [h]
    · simp only [h, if_false]
      rw [ih (n / 10) (Nat.digitChar (n % 10) :: ds), ih (n / 10) [Nat.digitChar (n % 10)]]
      simp

theorem toDigitsCore_spec (fuel : Nat) :
    ∀ n : Nat, n < fuel →
      digitsValue (Nat.toDigitsCore 10 fuel n []) = n ∧
      (∀ c ∈ Nat.toDigitsCore 10 fuel n [], c ∈ decimalChars) ∧
      Nat.toDigitsCore 10 fuel n [] ≠ [] := by
  induction fuel with
  | zero => intro n h; omega
  | succ fuel ih =>
    intro n hn
    simp only [Nat.toDigitsCore]
    have hmod : n % 10 < 10 := Nat.mod_lt _ (by decide)
    by_cases h : n / 10 = 0
    · simp only [h, if_true]
      refine ⟨?_, ?_, by simp⟩
      · have : n < 10 := by omega
        simp only [digitsValue, List.foldl]
        rw [digitChar_value _ hmod]
        omega
      · intro c hc
        simp only [List.mem_singleton] at hc
        subst hc
        exact digitChar_mem _ hmod
    · simp only [h, if_false]
      have hlt : n / 10 < fuel := by omega
      obtain ⟨hv, hm, _⟩ := ih (n / 10) hlt
      rw [toDigitsCore_append]
      refine ⟨?_, ?_, by simp⟩
      · rw [digitsValue_append_single, hv, digitChar_value _ hmod]
        omega
      · intro c hc
        rcases List.mem_append.mp hc with hc | hc
        · exact hm c hc
        · simp only [List.mem_singleton] at hc
          subst hc
          exact digitChar_mem _ hmod

theorem numberToString_data (n : Nat) :
    (numberToString n).data = Nat.toDigits 10 n := rfl

theorem numberToString_spec (n : Nat) :
    digitsValue (numberToString n).data = n ∧
    (∀ c ∈ (numberToString n).data, c ∈ decimalChars) ∧
    (numberToString n).data ≠ [] := by
  rw [numberToString_data]
  exact toDigitsCore_spec (n + 1) n (Nat.lt_succ_self n)

theorem parseInt10_of_decimal (s : String)
    (hall : ∀ c ∈ s.data, c ∈ decimalChars) (hne : s.data ≠ []) :
    parseInt10 s = some (digitsValue s.data : Int) := by
  have hdrop : s.data.dropWhile isStrWhiteSpaceChar = s.data := by
    cases hs : s.data with
    | nil => exact absurd hs hne
    | cons c rest =>
      have hc := (decimalChars_facts c (hall c (by simp [hs]))).2.1
      simp [List.dropWhile, hc]
  have htake : s.data.takeWhile Char.isDigit = s.data := by
    rw [List.takeWhile_eq_self_iff]
    intro c hc
    exact (decimalChars_facts c (hall c hc)).1
  unfold parseInt10
  simp only [hdrop]
  cases hs : s.data with
  | nil => exact absurd hs hne
  | cons c rest =>
    have hc := decimalChars_facts c (hall c (by simp [hs]))
    have hbody : (match c :: rest with
        | '-' :: r => r
        | '+' :: r => r
        | other => other) = c :: rest := by
      split
      · rename_i heq; cases heq; exact absurd rfl hc.2.2.1
      · rename_i heq; cases heq; exact absurd rfl hc.2.2.2
      · rfl
    rw [hs] at htake
    simp only [hbody, htake]
    simp [hc.2.2.1]

/-- Reading back the decimal text of an index gives the index. -/
theorem parseInt10_numberToString (n : Nat) :
    parseInt10 (numberToString n) = some (n : Int) := by
  obtain ⟨hv, hall, hne⟩ := numberToString_spec n
  rw [parseInt10_of_decimal _ hall hne, hv]

theorem numberToString_injective {a b : Nat} (h : numberToString a = numberToString b) :
    a = b := by
  have ha := parseInt10_numberToString a
  rw [h, parseInt10_numberToString b] at ha
  exact_mod_cast (Option.some.inj ha).symm

end Js

/-! ## Gallery: index arithmetic, the range invariant, the restore -/

namespace Script

theorem andThen_state_preserves {σ : Type} (P : σ → Prop) (o : Outcome σ)
    (next : σ → Outcome σ) (ho : P o.state) (hnext : ∀ s, P s → P (next s).state) :
    P (o.andThen next).state := by
  unfold Outcome.andThen
  split
  · exact ho
  · exact hnext _ ho

theorem arrayGet_natCast {α : Type} (xs : List α) (i : Nat) :
    arrayGet xs (some (i : Int)) = xs[i]?.map (fun x => (i, x)) := rfl

theorem arrayGet_some_lt {α : Type} {xs : List α} {index : Option Int} {i : Nat} {x : α}
    (h : arrayGet xs index = some (i, x)) : i < xs.length ∧ xs[i]? = some x := by
  unfold arrayGet at h
  split at h
  · rename_i j
    rw [Option.map_eq_some'] at h
    obtain ⟨y, hy, heq⟩ := h
    cases heq
    exact ⟨(List.getElem?_eq_some.mp hy).1, hy⟩
  · exact absurd h (by simp)

theorem validIndex_natCast {k i : Nat} (h : i < k) : validIndex k (some (i : Int)) = true := by
  simp [validIndex, h]

theorem validIndex_iff {k : Nat} {ci : Option Int} :
    validIndex k ci = true ↔ ∃ i : Nat, ci = some (i : Int) ∧ i < k := by
  cases ci with
  | none => simp [validIndex]
  | some v =>
    simp only [validIndex, Bool.and_eq_true, decide_eq_true_eq, Option.some.injEq]
    constructor
    · rintro ⟨h0, hk⟩
      exact ⟨v.toNat, by omega, by omega⟩
    · rintro ⟨i, rfl, hi⟩
      exact ⟨by omega, by omega⟩

theorem openLightbox_valid (page : GalleryPage) (index : Option Int) (s : GalleryState)
    (h : validIndex page.galleryImgs.length s.currentIndex = true) :
    validIndex page.galleryImgs.length (openLightbox page index s).state.currentIndex = true := by
  unfold openLightbox
  cases hget : arrayGet page.galleryImgs index with
  | none => simpa [Outcome.done] using h
  | some found =>
    obtain ⟨i, img⟩ := found
    have hi := (arrayGet_some_lt hget).1
    by_cases h1 : page.hasLbImg = true <;> by_cases h2 : page.hasLbCaption = true <;>
      by_cases h3 : page.hasLightbox = true <;>
      simp [h1, h2, h3, Outcome.done, Outcome.raise, h, validIndex_natCast hi]

theorem openLightbox_present (page : GalleryPage) (i : Nat) (img : GalleryImg)
    (s : GalleryState) (himg : page.galleryImgs[i]? = some img)
    (h1 : page.hasLightbox = true) (h2 : page.hasLbImg = true) (h3 : page.hasLbCaption = true) :
    openLightbox page (some (i : Int)) s =
      Outcome.done
        { s with lbImgSrc := img.src, lbImgAlt := img.alt,
                 lbCaptionText := img.caption.getD "",
                 lightboxOpen := true, ariaHidden := some "false",
                 currentIndex := some (i : Int),
                 storage := s.storage.setItem "gallery-last" (Js.numberToString i) } := by
  simp [openLightbox, arrayGet_natCast, himg, h1, h2, h3]

theorem closeLightbox_currentIndex (page : GalleryPage) (s : GalleryState) :
    (closeLightbox page s).state.currentIndex = s.currentIndex := by
  unfold closeLightbox
  by_cases h1 : page.hasLbImg = true <;> by_cases h2 : page.hasLbCaption = true <;>
    by_cases h3 : page.hasLightbox = true <;>
    simp [h1, h2, h3, Outcome.done, Outcome.raise]

theorem showNext_target (k i : Nat) (dir : Int) (hik : i < k) (hdir : dir = 1 ∨ dir = -1) :
    Js.rem ((i : Int) + dir + (k : Int)) k = some (((i : Int) + dir + (k : Int)) % (k : Int)) ∧
    0 ≤ ((i : Int) + dir + (k : Int)) % (k : Int) ∧
    ((i : Int) + dir + (k : Int)) % (k : Int) < (k : Int) := by
  have hk : (k : Int) ≠ 0 := by omega
  have hk0 : k ≠ 0 := by omega
  refine ⟨?_, Int.emod_nonneg _ hk, Int.emod_lt_of_pos _ (by omega)⟩
  unfold Js.rem
  rw [if_neg hk0, Int.tmod_eq_emod (by rcases hdir with h | h <;> omega) (by omega)]

theorem showNext_valid (page : GalleryPage) (dir : Int) (s : GalleryState)
    (hdir : dir = 1 ∨ dir = -1)
    (h : validIndex page.galleryImgs.length s.currentIndex = true) :
    validIndex page.galleryImgs.length (showNext page dir s).state.currentIndex = true := by
  obtain ⟨i, hi, hik⟩ := validIndex_iff.mp h
  obtain ⟨hrem, h0, hlt⟩ := showNext_target page.galleryImgs.length i dir hik hdir
  unfold showNext
  apply openLightbox_valid
  simp only [hi, hrem, validIndex, Bool.and_eq_true, decide_eq_true_eq]
  exact ⟨h0, hlt⟩

theorem onKeydown_valid (page : GalleryPage) (key : String) (s : GalleryState)
    (h : validIndex page.galleryImgs.length s.currentIndex = true) :
    validIndex page.galleryImgs.length (onKeydown page key s).state.currentIndex = true := by
  unfold onKeydown
  by_cases h1 : page.hasLightbox = true
  · by_cases h2 : s.lightboxOpen = true
    · simp only [h1, h2, Bool.not_true, Bool.false_eq_true, if_false]
      refine andThen_state_preserves
        (fun st : GalleryState => validIndex page.galleryImgs.length st.currentIndex = true)
        _ _ ?_ ?_
      · refine andThen_state_preserves
          (fun st : GalleryState => validIndex page.galleryImgs.length st.currentIndex = true)
          _ _ ?_ ?_
        · split
          · rw [closeLightbox_currentIndex]; exact h
          · exact h
        · intro s1 hs1
          split
          · exact showNext_valid page 1 s1 (Or.inl rfl) hs1
          · exact hs1
      · intro s2 hs2
        split
        · exact showNext_valid page (-1) s2 (Or.inr rfl) hs2
        · exact hs2
    · simpa [h1, h2, Outcome.done] using h
  · simpa [h1, Outcome.raise] using h

theorem handleGallery_valid (page : GalleryPage) (ev : GalleryEvent) (s : GalleryState)
    (h : validIndex page.galleryImgs.length s.currentIndex = true) :
    validIndex page.galleryImgs.length (handleGallery page ev s).state.currentIndex = true := by
  cases ev with
  | thumbClick i =>
    simp only [handleGallery]
    split
    · exact openLightbox_valid page _ s h
    · exact h
  | closeClick =>
    simp only [handleGallery]
    split
    · rw [closeLightbox_currentIndex]; exact h
    · exact h
  | prevClick =>
    simp only [handleGallery]
    split
    · exact showNext_valid page (-1) s (Or.inr rfl) h
    · exact h
  | nextClick =>
    simp only [handleGallery]
    split
    · exact showNext_valid page 1 s (Or.inl rfl) h
    · exact h
  | lightboxClick target =>
    simp only [handleGallery]
    split
    · rw [closeLightbox_currentIndex]; exact h
    · exact h
  | keydown key => exact onKeydown_valid page key s h

theorem runGallery_valid (page : GalleryPage) (evs : List GalleryEvent) :
    ∀ s : GalleryState, validIndex page.galleryImgs.length s.currentIndex = true →
      validIndex page.galleryImgs.length (runGallery page evs s).currentIndex = true := by
  induction evs with
  | nil => intro s h; exact h
  | cons ev rest ih =>
    intro s h
    simp only [runGallery, List.foldl_cons]
    exact ih _ (handleGallery_valid page ev s h)

theorem restoreGalleryIndex_eq (read : StorageRead) (k : Nat) :
    restoreGalleryIndex read k =
      Outcome.done
        (match read with
          | .value (some saved) =>
            (match Js.parseInt10 saved with
              | some si => if 0 ≤ si ∧ si < (k : Int) then some si else some 0
              | none => some 0)
          | _ => some 0) := by
  unfold restoreGalleryIndex restoreBody
  cases read with
  | throws => rfl
  | value v =>
    cases v with
    | none => rfl
    | some saved =>
      simp only
      cases Js.parseInt10 saved with
      | none => rfl
      | some si =>
        simp only
        split <;> rfl

theorem restoreGalleryIndex_valid (read : StorageRead) (k : Nat) (hk : 1 ≤ k) :
    validIndex k (restoreGalleryIndex read k).state = true := by
  rw [restoreGalleryIndex_eq]
  have h0 : validIndex k (some 0) = true := by
    simp [validIndex]; omega
  cases read with
  | throws => exact h0
  | value v =>
    cases v with
    | none => exact h0
    | some saved =>
      simp only [Outcome.done]
      cases Js.parseInt10 saved with
      | none => exact h0
      | some si =>
        simp only
        split
        · rename_i h; simp [validIndex, h.1, h.2]
        · exact h0

theorem gallery_scenario (a b c : GalleryImg) (cl pv nx : Bool) (s : GalleryState) :
    let page : GalleryPage := ⟨[a, b, c], true, true, true, cl, pv, nx⟩
    let s1 := (handleGallery page (.thumbClick 1) s).state
    let s2 := (handleGallery page (.keydown "ArrowRight") s1).state
    let s3 := (handleGallery page (.keydown "ArrowRight") s2).state
    (s1.currentIndex = some 1 ∧ s1.lightboxOpen = true ∧ s1.lbImgSrc = b.src) ∧
    (s2.currentIndex = some 2 ∧ s2.lightboxOpen = true ∧ s2.lbImgSrc = c.src) ∧
    (s3.currentIndex = some 0 ∧ s3.lightboxOpen = true ∧ s3.lbImgSrc = a.src) := by
  have h5 : Int.tmod 5 3 = 2 := by decide
  have h6 : Int.tmod 6 3 = 0 := by decide
  have g0 : arrayGet [a, b, c] (some (0 : Int)) = some (0, a) := rfl
  have g1 : arrayGet [a, b, c] (some (1 : Int)) = some (1, b) := rfl
  have g2 : arrayGet [a, b, c] (some (2 : Int)) = some (2, c) := rfl
  simp [handleGallery, onKeydown, openLightbox, showNext, Outcome.andThen,
    Outcome.done, Outcome.raise, Js.rem, closeLightbox, h5, h6, g0, g1, g2]

theorem openLightbox_same_index (page : GalleryPage) (j : Nat) (s : GalleryState)
    (hs : s.currentIndex = some (j : Int)) :
    (openLightbox page (some (j : Int)) s).state.currentIndex = some (j : Int) := by
  unfold openLightbox
  rw [arrayGet_natCast]
  cases page.galleryImgs[j]? with
  | none => simpa [Outcome.done] using hs
  | some img =>
    by_cases h1 : page.hasLbImg = true <;> by_cases h2 : page.hasLbCaption = true <;>
      by_cases h3 : page.hasLightbox = true <;>
      simp [h1, h2, h3, Outcome.done, Outcome.raise, hs]

theorem showNext_eq_openLightbox (page : GalleryPage) (s : GalleryState) (i j : Nat)
    (dir : Int) (hcur : s.currentIndex = some (i : Int))
    (hrem : Js.rem ((i : Int) + dir + (page.galleryImgs.length : Int)) page.galleryImgs.length
      = some (j : Int)) :
    showNext page dir s =
      openLightbox page (some (j : Int)) { s with currentIndex := some (j : Int) } := by
  simp [showNext, hcur, hrem]

/-- C1: in a gallery of `k ≥ 1` images with `currentIndex = i` in `[0, k)`,
`showNext(dir)` for `dir` in {1, -1} leaves `currentIndex = (i + dir + k) mod k`,
an index of the gallery; when the lightbox elements exist it opens the lightbox
on that image and persists the index. Forward from `k - 1` gives 0, backward
from 0 gives `k - 1`. With three images, opening index 1 and pressing
ArrowRight twice displays index 2 and then index 0. -/
theorem showNext_opens_wrapped_index (page : GalleryPage) (s : GalleryState) (i : Nat)
    (dir : Int) (hcur : s.currentIndex = some (i : Int)) (hik : i < page.galleryImgs.length)
    (hdir : dir = 1 ∨ dir = -1) :
    ∃ (j : Nat) (img : GalleryImg),
      (j : Int) = ((i : Int) + dir + (page.galleryImgs.length : Int))
        % (page.galleryImgs.length : Int) ∧
      page.galleryImgs[j]? = some img ∧
      (showNext page dir s).state.currentIndex = some (j : Int) ∧
      (dir = 1 → i + 1 = page.galleryImgs.length → j = 0) ∧
      (dir = -1 → i = 0 → j + 1 = page.galleryImgs.length) ∧
      (page.hasLightbox = true → page.hasLbImg = true → page.hasLbCaption = true →
        showNext page dir s =
          Outcome.done
            { s with lbImgSrc := img.src, lbImgAlt := img.alt,
                     lbCaptionText := img.caption.getD "",
                     lightboxOpen := true, ariaHidden := some "false",
                     currentIndex := some (j : Int),
                     storage := s.storage.setItem "gallery-last" (Js.numberToString j) }) ∧
      (∀ (a b c : GalleryImg) (cl pv nx : Bool) (s0 : GalleryState),
        let page3 : GalleryPage := ⟨[a, b, c], true, true, true, cl, pv, nx⟩
        let s1 := (handleGallery page3 (.thumbClick 1) s0).state
        let s2 := (handleGallery page3 (.keydown "ArrowRight") s1).state
        let s3 := (handleGallery page3 (.keydown "ArrowRight") s2).state
        (s1.currentIndex = some 1 ∧ s1.lightboxOpen = true ∧ s1.lbImgSrc = b.src) ∧
        (s2.currentIndex = some 2 ∧ s2.lightboxOpen = true ∧ s2.lbImgSrc = c.src) ∧
        (s3.currentIndex = some 0 ∧ s3.lightboxOpen = true ∧ s3.lbImgSrc = a.src)) := by
  obtain ⟨hrem, h0, hlt⟩ := showNext_target page.galleryImgs.length i dir hik hdir
  obtain ⟨j, hj⟩ := Int.eq_ofNat_of_zero_le h0
  have hjk : j < page.galleryImgs.length := by omega
  rw [hj] at hrem
  have himg : page.galleryImgs[j]? = some (page.galleryImgs[j]) :=
    List.getElem?_eq_getElem hjk
  have hshow := showNext_eq_openLightbox page s i j dir hcur hrem
  refine ⟨j, page.galleryImgs[j], hj.symm, himg, ?_, ?_, ?_, ?_, gallery_scenario⟩
  · rw [hshow]
    exact openLightbox_same_index page j _ rfl
  · intro hd hi
    subst hd
    have : ((i : Int) + 1 + (page.galleryImgs.length : Int)) % (page.galleryImgs.length : Int)
        = 0 := by
      have e : (i : Int) + 1 + (page.galleryImgs.length : Int)
          = (page.galleryImgs.length : Int) * 2 := by omega
      rw [e]
      exact Int.mul_emod_right _ _
    omega
  · intro hd hi
    subst hd
    subst hi
    have : (((0 : Nat) : Int) + -1 + (page.galleryImgs.length : Int))
        % (page.galleryImgs.length : Int) = (page.galleryImgs.length : Int) - 1 := by
      apply Int.emod_eq_of_lt <;> omega
    omega
  · intro h1 h2 h3
    rw [hshow, openLightbox_present page j _ _ himg h1 h2 h3]

/-- The wrap-around of C1 at a concrete gallery: three images, index 2, forward. -/
theorem showNext_opens_wrapped_index_witness :
    (showNext gallery3 1 { galleryFresh with currentIndex := some 2 }).state.currentIndex
      = some 0 := by
  obtain ⟨j, img, hj, _, hci, hwrap, _⟩ :=
    showNext_opens_wrapped_index gallery3 { galleryFresh with currentIndex := some 2 } 2 1
      rfl (by decide) (Or.inl rfl)
  rw [hci, hwrap rfl rfl]
  rfl

/-- C2: in a gallery with at least one image, `currentIndex` is an integer in
`[0, imageCount)` after the load-time restore from any stored value (or a
throwing store), is kept there by `openLightbox` at any index, `closeLightbox`,
`showNext(1)`, `showNext(-1)` and the key handler for any key, and so holds in
every state reachable by any sequence of gallery events. -/
theorem currentIndex_in_range (page : GalleryPage) (hk : 1 ≤ page.galleryImgs.length) :
    (∀ (read : StorageRead) (dom : GalleryState),
      validIndex page.galleryImgs.length (loadGallery page read dom).currentIndex = true) ∧
    (∀ s : GalleryState, validIndex page.galleryImgs.length s.currentIndex = true →
      (∀ index : Option Int,
        validIndex page.galleryImgs.length (openLightbox page index s).state.currentIndex
          = true) ∧
      validIndex page.galleryImgs.length (closeLightbox page s).state.currentIndex = true ∧
      validIndex page.galleryImgs.length (showNext page 1 s).state.currentIndex = true ∧
      validIndex page.galleryImgs.length (showNext page (-1) s).state.currentIndex = true ∧
      (∀ key : String,
        validIndex page.galleryImgs.length (onKeydown page key s).state.currentIndex = true) ∧
      (∀ ev : GalleryEvent,
        validIndex page.galleryImgs.length (handleGallery page ev s).state.currentIndex
          = true)) ∧
    (∀ (read : StorageRead) (dom : GalleryState) (evs : List GalleryEvent),
      validIndex page.galleryImgs.length
        (runGallery page evs (loadGallery page read dom)).currentIndex = true) := by
  have hload : ∀ (read : StorageRead) (dom : GalleryState),
      validIndex page.galleryImgs.length (loadGallery page read dom).currentIndex = true :=
    fun read _ => restoreGalleryIndex_valid read _ hk
  refine ⟨hload, ?_, fun read dom evs => runGallery_valid page evs _ (hload read dom)⟩
  intro s hs
  refine ⟨fun index => openLightbox_valid page index s hs, ?_,
    showNext_valid page 1 s (Or.inl rfl) hs, showNext_valid page (-1) s (Or.inr rfl) hs,
    fun key => onKeydown_valid page key s hs, fun ev => handleGallery_valid page ev s hs⟩
  rw [closeLightbox_currentIndex]
  exact hs

/-- The invariant of C2 on a concrete run: a stored index out of range, then
a thumbnail click, two steps back and Escape. -/
theorem currentIndex_in_range_witness :
    validIndex 3
      (runGallery gallery3
        [.thumbClick 0, .keydown "ArrowLeft", .prevClick, .keydown "Escape"]
        (loadGallery gallery3 (.value (some "7")) galleryFresh)).currentIndex = true :=
  (currentIndex_in_range gallery3 (by decide)).2.2 (.value (some "7")) galleryFresh
    [.thumbClick 0, .keydown "ArrowLeft", .prevClick, .keydown "Escape"]

/-- C3 as stated fails: with three images and the stored text `1abc`, which
is not the decimal text of an index, the restore keeps index 1, where the
claim discards the value and gives 0. -/
theorem restore_keeps_leading_digits :
    Js.parseInt10 "1abc" = some 1 ∧
    (restoreGalleryIndex (.value (some "1abc")) 3).state = some 1 ∧
    Spec.restoredIndex (some "1abc") 3 = 0 := by
  decide

/-- C3, amended: for every image count `k` and every outcome of reading
`gallery-last` (an exception, nothing stored, or any string), the restore
ends normally; `currentIndex` is `parseInt(stored, 10)` when that is an integer
in `[0, k)`, and 0 in every other case (exception, nothing stored, `NaN`,
negative, `k` or more). The decimal text of an index below `k` is restored to
that index, that of a larger number to 0, and what `openLightbox(i)` persisted
is restored to `i`. -/
theorem restoreGalleryIndex_parses_leading_integer (k : Nat) (read : StorageRead) :
    (restoreGalleryIndex read k).threw = false ∧
    (∀ (saved : String) (si : Int), read = .value (some saved) →
      Js.parseInt10 saved = some si → 0 ≤ si → si < (k : Int) →
      (restoreGalleryIndex read k).state = some si) ∧
    ((read = .throws ∨ read = .value none ∨
        ∃ saved, read = .value (some saved) ∧
          (Js.parseInt10 saved = none ∨
            ∃ si, Js.parseInt10 saved = some si ∧ (si < 0 ∨ (k : Int) ≤ si))) →
      (restoreGalleryIndex read k).state = some 0) ∧
    (∀ i : Nat, i < k →
      (restoreGalleryIndex (.value (some (Js.numberToString i))) k).state = some (i : Int)) ∧
    (∀ i : Nat, k ≤ i →
      (restoreGalleryIndex (.value (some (Js.numberToString i))) k).state = some 0) ∧
    (∀ (page : GalleryPage) (s : GalleryState) (i : Nat),
      page.galleryImgs.length = k → i < k →
      page.hasLightbox = true → page.hasLbImg = true → page.hasLbCaption = true →
      (restoreGalleryIndex
        (.value ((openLightbox page (some (i : Int)) s).state.storage.getItem "gallery-last"))
        k).state = some (i : Int)) := by
  have hround : ∀ i : Nat, i < k →
      (restoreGalleryIndex (.value (some (Js.numberToString i))) k).state = some (i : Int) := by
    intro i hi
    rw [restoreGalleryIndex_eq]
    simp only [Js.parseInt10_numberToString, Outcome.done]
    rw [if_pos ⟨by omega, by omega⟩]
  refine ⟨rfl, ?_, ?_, hround, ?_, ?_⟩
  · intro saved si hread hparse h0 hlt
    rw [restoreGalleryIndex_eq, hread]
    simp only [hparse, Outcome.done]
    rw [if_pos ⟨h0, hlt⟩]
  · intro h
    rw [restoreGalleryIndex_eq]
    rcases h with h | h | ⟨saved, h, hp⟩
    · rw [h]; rfl
    · rw [h]; rfl
    · rw [h]
      rcases hp with hp | ⟨si, hp, hout⟩
      · simp only [hp, Outcome.done]
      · simp only [hp, Outcome.done]
        rw [if_neg (by omega)]
  · intro i hi
    rw [restoreGalleryIndex_eq]
    simp only [Js.parseInt10_numberToString, Outcome.done]
    rw [if_neg (by omega)]
  · intro page s i hlen hi h1 h2 h3
    have himg : page.galleryImgs[i]? = some (page.galleryImgs[i]) :=
      List.getElem?_eq_getElem (by omega)
    rw [openLightbox_present page i _ s himg h1 h2 h3]
    simp only [Outcome.done, Storage.getItem, Storage.setItem, if_true]
    exact hround i hi

end Script

/-! ## Project selection: save, reload, restore -/

namespace Script

theorem mem_selectedIndices (cards : List ProjectCard) :
    ∀ (start j : Nat), Js.numberToString j ∈ selectedIndices start cards ↔
      start ≤ j ∧ ∃ c, cards[j - start]? = some c ∧ c.selected = true := by
  induction cards with
  | nil => intro start j; simp [selectedIndices]
  | cons card rest ih =>
    intro start j
    have htail : (start + 1 ≤ j ∧ ∃ c, rest[j - (start + 1)]? = some c ∧ c.selected = true) ↔
        (start < j ∧ ∃ c, (card :: rest)[j - start]? = some c ∧ c.selected = true) := by
      constructor
      · rintro ⟨hle, c, hc, hsel⟩
        refine ⟨hle, c, ?_, hsel⟩
        have e : j - start = (j - (start + 1)) + 1 := by omega
        rw [e, List.getElem?_cons_succ]
        exact hc
      · rintro ⟨hlt, c, hc, hsel⟩
        refine ⟨hlt, c, ?_, hsel⟩
        have e : j - start = (j - (start + 1)) + 1 := by omega
        rw [e, List.getElem?_cons_succ] at hc
        exact hc
    have hhead : ∀ c, (card :: rest)[start - start]? = some c ↔ card = c := by
      intro c
      simp
    by_cases hsel : card.selected = true
    · simp only [selectedIndices, hsel, if_true, List.mem_cons, ih, htail]
      constructor
      · rintro (h | ⟨hlt, h⟩)
        · have := Js.numberToString_injective h
          subst this
          exact ⟨le_refl _, card, (hhead card).mpr rfl, hsel⟩
        · exact ⟨le_of_lt hlt, h⟩
      · rintro ⟨hle, h⟩
        rcases Nat.eq_or_lt_of_le hle with heq | hlt
        · left; rw [heq]
        · right; exact ⟨hlt, h⟩
    · have hsel0 : card.selected = false := by simpa using hsel
      simp only [selectedIndices, hsel0, Bool.false_eq_true, if_false, ih, htail]
      constructor
      · rintro ⟨hlt, h⟩
        exact ⟨le_of_lt hlt, h⟩
      · rintro ⟨hle, c, hc, hcsel⟩
        rcases Nat.eq_or_lt_of_le hle with heq | hlt
        · subst heq
          have := (hhead c).mp hc
          subst this
          exact absurd hcsel hsel
        · exact ⟨hlt, c, hc, hcsel⟩

theorem markSelected_length (arr : List JsonElem) (cards : List ProjectCard) :
    ∀ start : Nat, (markSelected arr start cards).length = cards.length := by
  induction cards with
  | nil => intro start; rfl
  | cons card rest ih => intro start; simp [markSelected, ih]

theorem markSelected_getElem? (arr : List JsonElem) (cards : List ProjectCard) :
    ∀ (start i : Nat), (markSelected arr start cards)[i]? =
      cards[i]?.map (fun card =>
        if arr.contains (JsonElem.str (Js.numberToString (start + i))) ||
            arr.contains (JsonElem.num ((start + i : Nat) : Int))
          then { card with selected := true } else card) := by
  induction cards with
  | nil => intro start i; simp [markSelected]
  | cons card rest ih =>
    intro start i
    cases i with
    | zero => simp [markSelected]
    | succ i =>
      simp only [markSelected, List.getElem?_cons_succ, ih]
      have e : start + 1 + i = start + (i + 1) := by omega
      rw [e]

theorem contains_str_map (xs : List String) (x : String) :
    (xs.map JsonElem.str).contains (JsonElem.str x) = true ↔ x ∈ xs := by
  induction xs with
  | nil => simp
  | cons y rest ih =>
    simp only [List.map_cons, List.contains_cons, Bool.or_eq_true, ih, List.mem_cons,
      beq_iff_eq, JsonElem.str.injEq]

theorem contains_num_map (xs : List String) (n : Int) :
    (xs.map JsonElem.str).contains (JsonElem.num n) = false := by
  induction xs with
  | nil => rfl
  | cons x rest ih => simp [List.contains_cons, ih]

theorem loadSelectedProjects_after_save (json : JsonApi) (cards fresh : List ProjectCard)
    (st : Storage)
    (hne : json.stringifyStrings (selectedIndices 0 cards) ≠ "")
    (hparse : json.parse (json.stringifyStrings (selectedIndices 0 cards))
      = some (ParsedJson.array ((selectedIndices 0 cards).map JsonElem.str))) :
    loadSelectedProjects json fresh (saveSelectedProjects json cards st) =
      markSelected ((selectedIndices 0 cards).map JsonElem.str) 0 fresh := by
  simp [loadSelectedProjects, saveSelectedProjects, Storage.getItem, Storage.setItem,
    Js.truthy, hne, hparse]

theorem restored_selected_pointwise (cards fresh : List ProjectCard)
    (hlen : fresh.length = cards.length) (hfresh : ∀ c ∈ fresh, c.selected = false)
    (idx : Nat) :
    (markSelected ((selectedIndices 0 cards).map JsonElem.str) 0 fresh)[idx]?.map
        (fun c => c.selected) = cards[idx]?.map (fun c => c.selected) := by
  rw [markSelected_getElem?]
  by_cases hidx : idx < fresh.length
  · have hidx2 : idx < cards.length := by omega
    have hf : fresh[idx]? = some fresh[idx] := List.getElem?_eq_getElem hidx
    have hc : cards[idx]? = some cards[idx] := List.getElem?_eq_getElem hidx2
    have hfsel : (fresh[idx]).selected = false := hfresh _ (List.getElem_mem hidx)
    have hmem := mem_selectedIndices cards 0 idx
    simp only [Nat.sub_zero, Nat.zero_le, true_and, hc, Option.some.injEq, exists_eq_left']
      at hmem
    rw [hf, hc]
    simp only [Option.map_some', Nat.zero_add, contains_num_map, Bool.or_false,
      Option.some.injEq]
    by_cases hsel : cards[idx].selected = true
    · have hin : Js.numberToString idx ∈ selectedIndices 0 cards := hmem.mpr hsel
      simp [hin, hsel]
    · have hout : ¬ Js.numberToString idx ∈ selectedIndices 0 cards := fun h => hsel (hmem.mp h)
      have hsel0 : cards[idx].selected = false := by simpa using hsel
      simp [hout, hsel0, hfsel]
  · have hf : fresh[idx]? = none := List.getElem?_eq_none (by omega)
    have hc : cards[idx]? = none := List.getElem?_eq_none (by omega)
    rw [hf, hc]
    rfl

/-- C4: if `saveSelectedProjects` runs while exactly the cards with index in
`S` carry `selected`, then `loadSelectedProjects` on a freshly loaded page (the
same number of cards, none selected) puts `selected` on exactly the cards with
index in `S`: the selected flags of the restored cards are those of the saved
ones, and nothing else about the cards changes. `JSON` is the browser's: the
text it wrote is not empty and parses back to the array written. -/
theorem selected_projects_roundtrip (json : JsonApi) (cards fresh : List ProjectCard)
    (st : Storage) (S : Finset Nat)
    (hS : ∀ (idx : Nat) (c : ProjectCard), cards[idx]? = some c → (c.selected = true ↔ idx ∈ S))
    (hlen : fresh.length = cards.length)
    (hfresh : ∀ c ∈ fresh, c.selected = false)
    (hne : json.stringifyStrings (selectedIndices 0 cards) ≠ "")
    (hparse : json.parse (json.stringifyStrings (selectedIndices 0 cards))
      = some (ParsedJson.array ((selectedIndices 0 cards).map JsonElem.str))) :
    (loadSelectedProjects json fresh (saveSelectedProjects json cards st)).length
      = cards.length ∧
    (∀ (idx : Nat) (c : ProjectCard),
      (loadSelectedProjects json fresh (saveSelectedProjects json cards st))[idx]? = some c →
        (c.selected = true ↔ idx ∈ S)) ∧
    (loadSelectedProjects json fresh (saveSelectedProjects json cards st)).map
        (fun c => c.selected) = cards.map (fun c => c.selected) ∧
    (loadSelectedProjects json fresh (saveSelectedProjects json cards st)).map
        (fun c => c.hovered) = fresh.map (fun c => c.hovered) := by
  rw [loadSelectedProjects_after_save json cards fresh st hne hparse]
  have hpoint := restored_selected_pointwise cards fresh hlen hfresh
  refine ⟨by rw [markSelected_length, hlen], ?_, ?_, ?_⟩
  · intro idx c hc
    have h := hpoint idx
    rw [hc] at h
    cases hcard : cards[idx]? with
    | none => rw [hcard] at h; exact absurd h (by simp)
    | some c0 =>
      rw [hcard] at h
      simp only [Option.map_some', Option.some.injEq] at h
      rw [h]
      exact hS idx c0 hcard
  · apply List.ext_getElem?
    intro idx
    rw [List.getElem?_map, List.getElem?_map]
    exact hpoint idx
  · apply List.ext_getElem?
    intro idx
    rw [List.getElem?_map, List.getElem?_map, markSelected_getElem?]
    cases fresh[idx]? with
    | none => rfl
    | some f =>
      simp only [Option.map_some', Option.some.injEq]
      split <;> rfl

/-- The round trip of C4 on three cards with `S = {0, 2}`. -/
theorem selected_projects_roundtrip_witness :
    (loadSelectedProjects Sample.json Sample.freshCards
        (saveSelectedProjects Sample.json Sample.cards Storage.empty)).map
      (fun c => c.selected) = [true, false, true] :=
  (selected_projects_roundtrip Sample.json Sample.cards Sample.freshCards Storage.empty
    {0, 2}
    (by
      intro idx c h
      rcases idx with _ | _ | _ | n <;> simp [Sample.cards] at h <;> simp [← h])
    (by decide) (by decide) (by decide) (by decide)).2.2.1

end Script

/-! ## Theme: the two toggles -/

namespace ThemeSwitcher

theorem setTheme_rootDark (theme : String) (d : ThemeDoc) :
    (setTheme theme d).rootDark = decide (theme = "dark") := by
  unfold setTheme
  by_cases h : theme = "dark" <;> simp [h, ThemeDoc.setToggleText]

theorem setTheme_storage (theme : String) (d : ThemeDoc) :
    (setTheme theme d).storage = d.storage.setItem THEME_KEY theme := by
  unfold setTheme
  by_cases h : theme = "dark" <;> simp [h, ThemeDoc.setToggleText]

theorem setTheme_systemListener (theme : String) (d : ThemeDoc) :
    (setTheme theme d).systemListener = d.systemListener := by
  unfold setTheme
  by_cases h : theme = "dark" <;> simp [h, ThemeDoc.setToggleText]

theorem setTheme_themeToggle (theme : String) (d : ThemeDoc) :
    (setTheme theme d).themeToggle =
      d.themeToggle.map (fun b =>
        { b with textContent := if theme = "dark" then "☀️" else "🌙" }) := by
  unfold setTheme
  by_cases h : theme = "dark" <;> simp [h, ThemeDoc.setToggleText]

theorem setTheme_getItem (theme : String) (d : ThemeDoc) :
    (setTheme theme d).storage.getItem THEME_KEY = some theme := by
  rw [setTheme_storage]
  simp [Storage.getItem, Storage.setItem]

theorem setTheme_other_keys (theme : String) (d : ThemeDoc) (key : String)
    (hkey : key ≠ THEME_KEY) :
    (setTheme theme d).storage.getItem key = d.storage.getItem key := by
  rw [setTheme_storage]
  simp [Storage.getItem, Storage.setItem, hkey]

theorem toggle_rootDark (d : ThemeDoc) : (toggle d).rootDark = !d.rootDark := by
  unfold toggle
  rw [setTheme_rootDark]
  cases d.rootDark <;> decide

theorem toggle_getItem (d : ThemeDoc) :
    (toggle d).storage.getItem THEME_KEY = some (themeName (toggle d).rootDark) := by
  rw [toggle_rootDark]
  unfold toggle
  rw [setTheme_getItem]
  cases d.rootDark <;> rfl

theorem iterate_toggle_rootDark (n : Nat) :
    ∀ d : ThemeDoc, (Nat.iterate toggle n d).rootDark = xor d.rootDark (decide (n % 2 = 1)) := by
  induction n with
  | zero => intro d; simp
  | succ n ih =>
    intro d
    rw [Function.iterate_succ_apply, ih, toggle_rootDark]
    rcases Nat.mod_two_eq_zero_or_one n with h | h
    · have h2 : (n + 1) % 2 = 1 := by omega
      simp [h, h2]
    · have h2 : (n + 1) % 2 = 0 := by omega
      simp [h, h2]

end ThemeSwitcher

namespace Script

theorem applyTheme_rootDark (t : String) (d : ThemeDoc) :
    (applyTheme t d).rootDark = decide (t = "dark") := by
  unfold applyTheme
  by_cases h : t = "dark" <;> simp [h, ThemeDoc.setToggleText, ThemeDoc.setTogglePressed]

theorem applyTheme_storage (t : String) (d : ThemeDoc) :
    (applyTheme t d).storage = d.storage := by
  unfold applyTheme
  by_cases h : t = "dark" <;> simp [h, ThemeDoc.setToggleText, ThemeDoc.setTogglePressed]

theorem themeToggleClick_rootDark (d : ThemeDoc) :
    (themeToggleClick d).rootDark = !d.rootDark := by
  unfold themeToggleClick
  simp only [applyTheme_rootDark]
  cases d.rootDark <;> decide

theorem themeToggleClick_storage (d : ThemeDoc) :
    (themeToggleClick d).storage =
      d.storage.setItem "site-theme" (themeName (!d.rootDark)) := by
  unfold themeToggleClick
  simp only [applyTheme_storage]
  cases d.rootDark <;> rfl

theorem themeToggleClick_getItem (d : ThemeDoc) :
    (themeToggleClick d).storage.getItem "site-theme"
      = some (themeName (themeToggleClick d).rootDark) := by
  rw [themeToggleClick_rootDark, themeToggleClick_storage]
  simp [Storage.getItem, Storage.setItem]

theorem iterate_themeToggleClick_rootDark (n : Nat) :
    ∀ d : ThemeDoc,
      (Nat.iterate themeToggleClick n d).rootDark = xor d.rootDark (decide (n % 2 = 1)) := by
  induction n with
  | zero => intro d; simp
  | succ n ih =>
    intro d
    rw [Function.iterate_succ_apply, ih, themeToggleClick_rootDark]
    rcases Nat.mod_two_eq_zero_or_one n with h | h
    · have h2 : (n + 1) % 2 = 1 := by omega
      simp [h, h2]
    · have h2 : (n + 1) % 2 = 0 := by omega
      simp [h, h2]

end Script

/-- C5: starting from the light theme, `n` applications of the theme toggle
leave the `dark` marker set exactly when `n` is odd, for `ThemeSwitcher.toggle`
and for the click handler of the page script alike; and after each toggle the
value stored under that implementation's key is the name of the applied theme. -/
theorem toggle_parity (d : ThemeDoc) (n : Nat) (hlight : d.rootDark = false) :
    ((Nat.iterate ThemeSwitcher.toggle n d).rootDark = true ↔ Odd n) ∧
    ((Nat.iterate Script.themeToggleClick n d).rootDark = true ↔ Odd n) ∧
    (Nat.iterate ThemeSwitcher.toggle (n + 1) d).storage.getItem ThemeSwitcher.THEME_KEY
      = some (themeName (Nat.iterate ThemeSwitcher.toggle (n + 1) d).rootDark) ∧
    (Nat.iterate Script.themeToggleClick (n + 1) d).storage.getItem "site-theme"
      = some (themeName (Nat.iterate Script.themeToggleClick (n + 1) d).rootDark) := by
  refine ⟨?_, ?_, ?_, ?_⟩
  · rw [ThemeSwitcher.iterate_toggle_rootDark, hlight, Nat.odd_iff]
    simp
  · rw [Script.iterate_themeToggleClick_rootDark, hlight, Nat.odd_iff]
    simp
  · rw [Function.iterate_succ_apply']
    exact ThemeSwitcher.toggle_getItem _
  · rw [Function.iterate_succ_apply']
    exact Script.themeToggleClick_getItem _

/-- The parity of C5 after three toggles of a light document. -/
theorem toggle_parity_witness :
    (Nat.iterate ThemeSwitcher.toggle 3 Sample.bareDoc).rootDark = true ∧
    (Nat.iterate Script.themeToggleClick 3 Sample.bothDoc).rootDark = true :=
  ⟨(toggle_parity Sample.bareDoc 3 rfl).1.mpr (by decide),
   (toggle_parity Sample.bothDoc 3 rfl).2.1.mpr (by decide)⟩

/-! ## Theme: the module without its toggle control -/

namespace ThemeSwitcher

theorem setItem_setItem (st : Storage) (key value : String) :
    (st.setItem key value).setItem key value = st.setItem key value := by
  funext k
  unfold Storage.setItem
  split <;> rfl

theorem setTheme_idempotent (theme : String) (d : ThemeDoc) :
    setTheme theme (setTheme theme d) = setTheme theme d := by
  unfold setTheme
  by_cases h : theme = "dark"
  · cases htg : d.themeToggle <;>
      simp [h, ThemeDoc.setToggleText, htg, setItem_setItem]
  · cases htg : d.themeToggle <;>
      simp [h, ThemeDoc.setToggleText, htg, setItem_setItem]

/-- C7 as stated fails: without the toggle control, `toggle()` and
`setTheme('dark')` on a light document with an empty store set the `dark`
marker and persist `dark`. -/
theorem toggle_without_control_changes_theme :
    Sample.bareDoc.themeToggle = none ∧
    Sample.bareDoc.rootDark = false ∧
    Sample.bareDoc.storage.getItem THEME_KEY = none ∧
    (toggle Sample.bareDoc).rootDark = true ∧
    (toggle Sample.bareDoc).storage.getItem THEME_KEY = some "dark" ∧
    (setTheme "dark" Sample.bareDoc).rootDark = true ∧
    (setTheme "dark" Sample.bareDoc).storage.getItem THEME_KEY = some "dark" := by
  decide

/-- C7, amended: when the toggle control is absent, `init` is a no-op that
raises nothing (so it is idempotent and leaves the `dark` marker and the store
as they were). `setTheme(mode)` and `toggle` still act: `setTheme(mode)` sets the
marker exactly when `mode` is `dark`, persists `mode` under the theme key, and
is idempotent; `toggle` flips the marker and persists the name of the new
theme. Both leave the control absent and every other key untouched. -/
theorem absent_control_only_stops_init (d : ThemeDoc) (habsent : d.themeToggle = none) :
    (∀ matchMedia : Option Bool, init matchMedia d = Outcome.done d) ∧
    (∀ mode : String,
      (setTheme mode d).rootDark = decide (mode = "dark") ∧
      (setTheme mode d).storage.getItem THEME_KEY = some mode ∧
      (setTheme mode d).themeToggle = none ∧
      setTheme mode (setTheme mode d) = setTheme mode d ∧
      (∀ key : String, key ≠ THEME_KEY →
        (setTheme mode d).storage.getItem key = d.storage.getItem key)) ∧
    ((toggle d).rootDark = (!d.rootDark) ∧
      (toggle d).storage.getItem THEME_KEY = some (themeName (!d.rootDark)) ∧
      (toggle d).themeToggle = none ∧
      (∀ key : String, key ≠ THEME_KEY →
        (toggle d).storage.getItem key = d.storage.getItem key)) := by
  refine ⟨?_, ?_, ?_⟩
  · intro matchMedia
    simp [init, habsent]
  · intro mode
    refine ⟨setTheme_rootDark mode d, setTheme_getItem mode d, ?_, setTheme_idempotent mode d,
      fun key hkey => setTheme_other_keys mode d key hkey⟩
    rw [setTheme_themeToggle, habsent]
    rfl
  · refine ⟨toggle_rootDark d, ?_, ?_, fun key hkey => setTheme_other_keys _ d key hkey⟩
    · rw [toggle_getItem, toggle_rootDark]
    · unfold toggle
      rw [setTheme_themeToggle, habsent]
      rfl

/-- The amended C7 on the bare sample document: `init` changes nothing,
`toggle` makes it dark. -/
theorem absent_control_only_stops_init_witness :
    init (some true) Sample.bareDoc = Outcome.done Sample.bareDoc ∧
    (toggle Sample.bareDoc).rootDark = true :=
  ⟨(absent_control_only_stops_init Sample.bareDoc rfl).1 (some true),
   (absent_control_only_stops_init Sample.bareDoc rfl).2.2.1⟩

end ThemeSwitcher

/-! ## Theme: the system-preference listener -/

namespace ThemeSwitcher

theorem themePinned_setTheme (mode : String) (d : ThemeDoc) (hmode : mode ≠ "") :
    themePinned (setTheme mode d) = true := by
  unfold themePinned
  rw [setTheme_getItem]
  simp [Js.truthyOpt, Js.truthy, hmode]

theorem themePinned_toggle (d : ThemeDoc) : themePinned (toggle d) = true := by
  unfold toggle
  cases d.rootDark
  · exact themePinned_setTheme _ d (by decide)
  · exact themePinned_setTheme _ d (by decide)

theorem themePinned_loadTheme (matchMedia : Option Bool) (d : ThemeDoc) :
    themePinned (loadTheme matchMedia d) = true := by
  unfold loadTheme
  cases hget : d.storage.getItem THEME_KEY with
  | none =>
    simp only
    split
    · exact themePinned_setTheme _ d (by decide)
    · exact themePinned_setTheme _ d (by decide)
  | some saved =>
    simp only
    by_cases ht : Js.truthy saved = true
    · rw [if_pos ht]
      apply themePinned_setTheme
      intro h
      rw [h] at ht
      exact absurd ht (by decide)
    · rw [if_neg ht]
      split
      · exact themePinned_setTheme _ d (by decide)
      · exact themePinned_setTheme _ d (by decide)

theorem handleSystemThemeChange_of_pinned (isMatch : Bool) (d : ThemeDoc)
    (h : themePinned d = true) : handleSystemThemeChange isMatch d = d := by
  unfold themePinned at h
  simp [handleSystemThemeChange, h]

theorem handleSystemThemeChange_of_unpinned (isMatch : Bool) (d : ThemeDoc)
    (h : themePinned d = false) :
    handleSystemThemeChange isMatch d = setTheme (if isMatch then "dark" else "light") d := by
  unfold themePinned at h
  simp [handleSystemThemeChange, h]

theorem themePinned_handleSystemThemeChange (isMatch : Bool) (d : ThemeDoc) :
    themePinned (handleSystemThemeChange isMatch d) = true := by
  cases h : themePinned d
  · rw [handleSystemThemeChange_of_unpinned isMatch d h]
    cases isMatch
    · exact themePinned_setTheme _ d (by decide)
    · exact themePinned_setTheme _ d (by decide)
  · rw [handleSystemThemeChange_of_pinned isMatch d h]
    exact h

theorem init_storage (matchMedia : Option Bool) (d : ThemeDoc) :
    (init matchMedia d).state.storage =
      if d.themeToggle.isSome then (loadTheme matchMedia d).storage else d.storage := by
  unfold init
  cases d.themeToggle with
  | none => rfl
  | some b => cases matchMedia <;> rfl

theorem themePinned_init (matchMedia : Option Bool) (d : ThemeDoc)
    (h : themePinned d = true ∨ d.themeToggle.isSome = true) :
    themePinned (init matchMedia d).state = true := by
  have hload := themePinned_loadTheme matchMedia d
  unfold themePinned at *
  rw [init_storage]
  by_cases hb : d.themeToggle.isSome = true
  · rw [if_pos hb]; exact hload
  · rw [if_neg hb]
    rcases h with h | h
    · exact h
    · exact absurd h hb

end ThemeSwitcher

theorem themePinned_themeToggleClick (d : ThemeDoc) (h : themePinned d = true) :
    themePinned (Script.themeToggleClick d) = true := by
  unfold themePinned at *
  rw [Script.themeToggleClick_storage]
  simp only [Storage.getItem, Storage.setItem] at h ⊢
  rw [if_neg (by decide)]
  exact h

theorem themePinned_run (ev : SwitcherEvent) (d : ThemeDoc) (h : themePinned d = true)
    (hev : ev.keepsValue = true) : themePinned (ev.run d) = true := by
  cases ev with
  | toggle => exact ThemeSwitcher.themePinned_toggle d
  | setTheme mode =>
    apply ThemeSwitcher.themePinned_setTheme
    intro hmode
    rw [hmode] at hev
    exact absurd hev (by decide)
  | systemChange isMatch => exact ThemeSwitcher.themePinned_handleSystemThemeChange isMatch d
  | init matchMedia => exact ThemeSwitcher.themePinned_init matchMedia d (Or.inl h)
  | pageClick => exact themePinned_themeToggleClick d h

theorem themePinned_runSwitcher (evs : List SwitcherEvent) :
    ∀ d : ThemeDoc, themePinned d = true → (∀ ev ∈ evs, ev.keepsValue = true) →
      themePinned (runSwitcher evs d) = true := by
  induction evs with
  | nil => intro d h _; exact h
  | cons ev rest ih =>
    intro d h hevs
    simp only [runSwitcher, List.foldl_cons]
    exact ih _ (themePinned_run ev d h (hevs ev (List.mem_cons_self _ _)))
      (fun ev2 hev2 => hevs ev2 (List.mem_cons_of_mem _ hev2))

namespace ThemeSwitcher

/-- C9 as stated fails: on a document with the toggle control, `init` runs
`setTheme` from `loadTheme` and persists `light`; the exported `setTheme('')`
then persists the empty string, and a later system-preference change to dark
is applied although a value is persisted: it sets the marker and overwrites
the persisted value. -/
theorem system_change_applies_over_stored_empty_string :
    (init (some false) Sample.controlDoc).state.storage.getItem THEME_KEY = some "light" ∧
    (setTheme "" (init (some false) Sample.controlDoc).state).storage.getItem THEME_KEY
      = some "" ∧
    (setTheme "" (init (some false) Sample.controlDoc).state).rootDark = false ∧
    (handleSystemThemeChange true
      (setTheme "" (init (some false) Sample.controlDoc).state)).rootDark = true ∧
    (handleSystemThemeChange true
      (setTheme "" (init (some false) Sample.controlDoc).state)).storage.getItem THEME_KEY
      = some "dark" ∧
    (runSwitcher [.init (some false), .setTheme "", .systemChange true]
      Sample.controlDoc).rootDark
      ≠ (runSwitcher [.init (some false), .setTheme ""] Sample.controlDoc).rootDark := by
  decide

/-- C9, amended: `setTheme(mode)` persists `mode` under the theme key whatever
`mode` is. `handleSystemThemeChange` leaves the document alone when a non-empty
value is persisted, and applies the system preference when nothing, or the
empty string, is. Hence once `setTheme` has run from `loadTheme` (alone or
inside `init` with the control present), from `toggle`, or from a
system-preference change, then after any further events among toggles,
`setTheme(mode)` calls, system changes, `init` calls and clicks handled by the
page script, none of them a `setTheme` with the empty string, a
system-preference change leaves the document, its marker and its store
included, unchanged, whatever the event says. -/
theorem system_change_ignored_once_persisted (d : ThemeDoc) :
    (∀ mode : String, (setTheme mode d).storage.getItem THEME_KEY = some mode) ∧
    (∀ (isMatch : Bool) (v : String), d.storage.getItem THEME_KEY = some v → v ≠ "" →
      handleSystemThemeChange isMatch d = d) ∧
    (∀ isMatch : Bool,
      (d.storage.getItem THEME_KEY = none ∨ d.storage.getItem THEME_KEY = some "") →
      handleSystemThemeChange isMatch d = setTheme (if isMatch then "dark" else "light") d) ∧
    (∀ (matchMedia : Option Bool) (first later : Bool) (evs : List SwitcherEvent),
      (∀ ev ∈ evs, ev.keepsValue = true) →
      handleSystemThemeChange later (runSwitcher evs (loadTheme matchMedia d))
        = runSwitcher evs (loadTheme matchMedia d) ∧
      handleSystemThemeChange later (runSwitcher evs (toggle d))
        = runSwitcher evs (toggle d) ∧
      handleSystemThemeChange later (runSwitcher evs (handleSystemThemeChange first d))
        = runSwitcher evs (handleSystemThemeChange first d) ∧
      (d.themeToggle.isSome = true →
        handleSystemThemeChange later (runSwitcher evs (init matchMedia d).state)
          = runSwitcher evs (init matchMedia d).state)) := by
  refine ⟨fun mode => setTheme_getItem mode d, ?_, ?_, ?_⟩
  · intro isMatch v hv hne
    apply handleSystemThemeChange_of_pinned
    simp [themePinned, hv, Js.truthyOpt, Js.truthy, hne]
  · intro isMatch h
    apply handleSystemThemeChange_of_unpinned
    rcases h with h | h <;> simp [themePinned, h, Js.truthyOpt, Js.truthy]
  · intro matchMedia first later evs hevs
    refine ⟨?_, ?_, ?_, ?_⟩
    · exact handleSystemThemeChange_of_pinned _ _
        (themePinned_runSwitcher evs _ (themePinned_loadTheme matchMedia d) hevs)
    · exact handleSystemThemeChange_of_pinned _ _
        (themePinned_runSwitcher evs _ (themePinned_toggle d) hevs)
    · exact handleSystemThemeChange_of_pinned _ _
        (themePinned_runSwitcher evs _ (themePinned_handleSystemThemeChange first d) hevs)
    · intro hb
      exact handleSystemThemeChange_of_pinned _ _
        (themePinned_runSwitcher evs _ (themePinned_init matchMedia d (Or.inr hb)) hevs)

/-- The amended C9 on the sample document with the control: after `init`, a
toggle, `setTheme('light')` and a click handled by the page script, a system
change to dark changes nothing. -/
theorem system_change_ignored_once_persisted_witness :
    handleSystemThemeChange true
        (runSwitcher [.toggle, .setTheme "light", .pageClick]
          (init (some false) Sample.controlDoc).state)
      = runSwitcher [.toggle, .setTheme "light", .pageClick]
          (init (some false) Sample.controlDoc).state :=
  ((system_change_ignored_once_persisted Sample.controlDoc).2.2.2 (some false) false true
    [.toggle, .setTheme "light", .pageClick] (by decide)).2.2.2 rfl

end ThemeSwitcher

/-! ## Theme: both click listeners on one control -/

theorem themeName_ne_not (dark : Bool) : themeName (!dark) ≠ themeName dark := by
  cases dark <;> decide

theorem toggle_other_keys (d : ThemeDoc) (key : String)
    (hkey : key ≠ ThemeSwitcher.THEME_KEY) :
    (ThemeSwitcher.toggle d).storage.getItem key = d.storage.getItem key :=
  ThemeSwitcher.setTheme_other_keys _ d key hkey

theorem click_switcher_then_page (d : ThemeDoc) :
    (Script.themeToggleClick (ThemeSwitcher.toggle d)).rootDark = d.rootDark ∧
    (Script.themeToggleClick (ThemeSwitcher.toggle d)).storage.getItem ThemeSwitcher.THEME_KEY
      = some (themeName (!d.rootDark)) ∧
    (Script.themeToggleClick (ThemeSwitcher.toggle d)).storage.getItem "site-theme"
      = some (themeName d.rootDark) := by
  refine ⟨?_, ?_, ?_⟩
  · rw [Script.themeToggleClick_rootDark, ThemeSwitcher.toggle_rootDark, Bool.not_not]
  · rw [Script.themeToggleClick_storage]
    have h := ThemeSwitcher.toggle_getItem d
    rw [ThemeSwitcher.toggle_rootDark] at h
    simp only [Storage.getItem, Storage.setItem] at h ⊢
    rw [if_neg (by decide)]
    exact h
  · rw [Script.themeToggleClick_storage, ThemeSwitcher.toggle_rootDark, Bool.not_not]
    simp [Storage.getItem, Storage.setItem]

theorem click_page_then_switcher (d : ThemeDoc) :
    (ThemeSwitcher.toggle (Script.themeToggleClick d)).rootDark = d.rootDark ∧
    (ThemeSwitcher.toggle (Script.themeToggleClick d)).storage.getItem "site-theme"
      = some (themeName (!d.rootDark)) ∧
    (ThemeSwitcher.toggle (Script.themeToggleClick d)).storage.getItem ThemeSwitcher.THEME_KEY
      = some (themeName d.rootDark) := by
  refine ⟨?_, ?_, ?_⟩
  · rw [ThemeSwitcher.toggle_rootDark, Script.themeToggleClick_rootDark, Bool.not_not]
  · rw [toggle_other_keys _ "site-theme" (by decide), Script.themeToggleClick_storage]
    simp [Storage.getItem, Storage.setItem]
  · rw [ThemeSwitcher.toggle_getItem, ThemeSwitcher.toggle_rootDark,
      Script.themeToggleClick_rootDark, Bool.not_not]

theorem listeners_after_both_scripts (matchMedia : Option Bool) (d : ThemeDoc)
    (b : ToggleButton) (hb : d.themeToggle = some b) (hnone : b.clickListeners = []) :
    ((Script.wireThemeToggle (ThemeSwitcher.init matchMedia d).state).themeToggle.map
        (fun x => x.clickListeners)
      = some [ClickListener.switcherToggle, ClickListener.pageToggle]) ∧
    ((ThemeSwitcher.init matchMedia (Script.wireThemeToggle d)).state.themeToggle.map
        (fun x => x.clickListeners)
      = some [ClickListener.pageToggle, ClickListener.switcherToggle]) := by
  constructor
  · cases matchMedia <;>
      simp [Script.wireThemeToggle, ThemeSwitcher.init, hb, ThemeSwitcher.loadTheme,
        ThemeSwitcher.setTheme_themeToggle, hnone, Outcome.done, Outcome.raise] <;>
      (repeat' split) <;> simp [ThemeSwitcher.setTheme_themeToggle, hb, hnone]
  · cases matchMedia <;>
      simp [Script.wireThemeToggle, ThemeSwitcher.init, hb, ThemeSwitcher.loadTheme,
        ThemeSwitcher.setTheme_themeToggle, hnone, Outcome.done, Outcome.raise] <;>
      (repeat' split) <;> simp [ThemeSwitcher.setTheme_themeToggle, hb, hnone]

/-- C10: when the toggle control carries the click listener of `ThemeSwitcher`
and that of the page script, in either order, one click runs both flips and
leaves the `dark` marker as it was, whatever the starting theme; the key of the
listener that ran first holds the flipped theme, the key of the second holds
the original theme, so the two keys hold opposite values. Loading both scripts
on a control without listeners, in either order, produces these two listener
lists. -/
theorem click_with_both_listeners (d : ThemeDoc) (b : ToggleButton)
    (hb : d.themeToggle = some b)
    (hboth : b.clickListeners = [ClickListener.switcherToggle, ClickListener.pageToggle] ∨
      b.clickListeners = [ClickListener.pageToggle, ClickListener.switcherToggle]) :
    (clickThemeToggle d).rootDark = d.rootDark ∧
    (b.clickListeners = [ClickListener.switcherToggle, ClickListener.pageToggle] →
      (clickThemeToggle d).storage.getItem ThemeSwitcher.THEME_KEY
        = some (themeName (!d.rootDark)) ∧
      (clickThemeToggle d).storage.getItem "site-theme" = some (themeName d.rootDark)) ∧
    (b.clickListeners = [ClickListener.pageToggle, ClickListener.switcherToggle] →
      (clickThemeToggle d).storage.getItem "site-theme" = some (themeName (!d.rootDark)) ∧
      (clickThemeToggle d).storage.getItem ThemeSwitcher.THEME_KEY
        = some (themeName d.rootDark)) ∧
    (clickThemeToggle d).storage.getItem ThemeSwitcher.THEME_KEY
      ≠ (clickThemeToggle d).storage.getItem "site-theme" ∧
    (∀ matchMedia : Option Bool, b.clickListeners = [] →
      ((Script.wireThemeToggle (ThemeSwitcher.init matchMedia d).state).themeToggle.map
          (fun x => x.clickListeners)
        = some [ClickListener.switcherToggle, ClickListener.pageToggle]) ∧
      ((ThemeSwitcher.init matchMedia (Script.wireThemeToggle d)).state.themeToggle.map
          (fun x => x.clickListeners)
        = some [ClickListener.pageToggle, ClickListener.switcherToggle])) := by
  have hsp := click_switcher_then_page d
  have hps := click_page_then_switcher d
  have hclick1 : b.clickListeners = [ClickListener.switcherToggle, ClickListener.pageToggle] →
      clickThemeToggle d = Script.themeToggleClick (ThemeSwitcher.toggle d) := by
    intro h
    simp [clickThemeToggle, hb, h, ClickListener.run]
  have hclick2 : b.clickListeners = [ClickListener.pageToggle, ClickListener.switcherToggle] →
      clickThemeToggle d = ThemeSwitcher.toggle (Script.themeToggleClick d) := by
    intro h
    simp [clickThemeToggle, hb, h, ClickListener.run]
  refine ⟨?_, ?_, ?_, ?_, fun matchMedia hnone =>
    listeners_after_both_scripts matchMedia d b hb hnone⟩
  · rcases hboth with h | h
    · rw [hclick1 h]; exact hsp.1
    · rw [hclick2 h]; exact hps.1
  · intro h
    rw [hclick1 h]
    exact hsp.2
  · intro h
    rw [hclick2 h]
    exact hps.2
  · rcases hboth with h | h
    · rw [hclick1 h, hsp.2.1, hsp.2.2]
      intro heq
      exact themeName_ne_not d.rootDark (Option.some.inj heq)
    · rw [hclick2 h, hps.2.1, hps.2.2]
      intro heq
      exact themeName_ne_not d.rootDark (Option.some.inj heq).symm

/-- One click of C10 on the sample document with both listeners attached: it
stays light, and the two keys disagree. -/
theorem click_with_both_listeners_witness :
    (clickThemeToggle Sample.bothDoc).rootDark = false ∧
    (clickThemeToggle Sample.bothDoc).storage.getItem ThemeSwitcher.THEME_KEY = some "dark" ∧
    (clickThemeToggle Sample.bothDoc).storage.getItem "site-theme" = some "light" :=
  ⟨(click_with_both_listeners Sample.bothDoc _ rfl (Or.inl rfl)).1,
   (click_with_both_listeners Sample.bothDoc _ rfl (Or.inl rfl)).2.1 rfl⟩

/-! ## Contact form: validation and the simulated send -/

namespace Js

theorem trim_of_all_white (v : String) (h : ∀ c ∈ v.data, isStrWhiteSpaceChar c = true) :
    trim v = "" := by
  have hdrop : v.data.dropWhile isStrWhiteSpaceChar = [] :=
    List.dropWhile_eq_nil_iff.mpr h
  simp [trim, trimChars, hdrop]

end Js

namespace Script

theorem onSubmit_rejected (page : ContactPage) (s : ContactState)
    (h : Js.trim (s.form.name.getD "") = "" ∨ Js.trim (s.form.email.getD "") = "" ∨
      Js.trim (s.form.message.getD "") = "") :
    onSubmit page s =
      if page.hasStatus then
        Outcome.done
          { s with statusDisplay := some "block", statusColor := some "crimson",
                   statusText := "Please fill in all fields." }
      else Outcome.raise s := by
  have hcond : (!Js.truthy (Js.trim (s.form.name.getD "")) ||
      !Js.truthy (Js.trim (s.form.email.getD "")) ||
      !Js.truthy (Js.trim (s.form.message.getD ""))) = true := by
    rcases h with h | h | h <;> simp [Js.truthy, h]
  unfold onSubmit
  simp only [hcond, if_true]
  cases page.hasStatus <;> rfl

theorem onSubmit_accepted (page : ContactPage) (s : ContactState)
    (hn : Js.trim (s.form.name.getD "") ≠ "") (he : Js.trim (s.form.email.getD "") ≠ "")
    (hm : Js.trim (s.form.message.getD "") ≠ "") :
    onSubmit page s =
      if page.hasStatus then
        Outcome.done
          { s with statusDisplay := some "block", statusColor := some "#333",
                   statusText := "Sending message...",
                   sendTimers := s.sendTimers ++ [900] }
      else Outcome.raise s := by
  have hcond : (!Js.truthy (Js.trim (s.form.name.getD "")) ||
      !Js.truthy (Js.trim (s.form.email.getD "")) ||
      !Js.truthy (Js.trim (s.form.message.getD ""))) = false := by
    simp [Js.truthy, hn, he, hm]
  unfold onSubmit
  simp only [hcond, Bool.false_eq_true, if_false]
  cases page.hasStatus <;> rfl

/-- C6: a submission in which one of name, email, message is empty after
trimming (a missing or white-space-only value included) is rejected: the form
fields, the store (so the `contact-draft` key) and the list of send timers stay
as they were, and with the status paragraph present the handler shows
`Please fill in all fields.` in crimson. With all three trimmed values
non-empty it shows `Sending message...` and schedules one 900 ms timer, whose
callback shows the success text in green, resets the form and removes
`contact-draft`. -/
theorem submit_validates_fields (page : ContactPage) (s : ContactState) :
    ((Js.trim (s.form.name.getD "") = "" ∨ Js.trim (s.form.email.getD "") = "" ∨
        Js.trim (s.form.message.getD "") = "") →
      (onSubmit page s).state.form = s.form ∧
      (onSubmit page s).state.sendTimers = s.sendTimers ∧
      (onSubmit page s).state.storage = s.storage ∧
      (page.hasStatus = true →
        onSubmit page s =
          Outcome.done
            { s with statusDisplay := some "block", statusColor := some "crimson",
                     statusText := "Please fill in all fields." })) ∧
    (∀ value : Option String,
      (value = none ∨ ∃ v, value = some v ∧ ∀ c ∈ v.data, Js.isStrWhiteSpaceChar c = true) →
      Js.trim (value.getD "") = "") ∧
    (Js.trim (s.form.name.getD "") ≠ "" → Js.trim (s.form.email.getD "") ≠ "" →
      Js.trim (s.form.message.getD "") ≠ "" → page.hasStatus = true →
      onSubmit page s =
        Outcome.done
          { s with statusDisplay := some "block", statusColor := some "#333",
                   statusText := "Sending message...",
                   sendTimers := s.sendTimers ++ [900] } ∧
      (s.sendTimers = [] →
        fireSendTimer page (onSubmit page s).state =
          sendDone page { (onSubmit page s).state with sendTimers := [] }) ∧
      (∀ st : ContactState,
        (sendDone page st).statusColor = some "green" ∧
        (sendDone page st).statusText = "Message sent — thank you! (simulated)" ∧
        (sendDone page st).form = page.defaults ∧
        (sendDone page st).storage.getItem "contact-draft" = none)) := by
  refine ⟨?_, ?_, ?_⟩
  · intro h
    rw [onSubmit_rejected page s h]
    cases hst : page.hasStatus
    · exact ⟨rfl, rfl, rfl, fun hc => absurd hc (by simp)⟩
    · exact ⟨rfl, rfl, rfl, fun _ => rfl⟩
  · intro value h
    rcases h with h | ⟨v, h, hv⟩
    · rw [h]; rfl
    · rw [h]
      exact Js.trim_of_all_white v hv
  · intro hn he hm hst
    rw [onSubmit_accepted page s hn he hm, hst]
    refine ⟨rfl, ?_, ?_⟩
    · intro hempty
      simp [fireSendTimer, Outcome.done, hempty]
    · intro st
      refine ⟨rfl, rfl, rfl, ?_⟩
      simp [sendDone, Storage.getItem, Storage.removeItem]

/-- The scenario of C6: name `Ann`, email `a@x.com`, message `hi`. -/
theorem submit_validates_fields_witness :
    (onSubmit Sample.contactPage Sample.contactFilled).state.statusText
      = "Sending message..." ∧
    (onSubmit Sample.contactPage Sample.contactFilled).state.sendTimers = [900] ∧
    (fireSendTimer Sample.contactPage
      (onSubmit Sample.contactPage Sample.contactFilled).state).storage.getItem "contact-draft"
      = none := by
  have h := (submit_validates_fields Sample.contactPage Sample.contactFilled).2.2
    (by decide) (by decide) (by decide) rfl
  refine ⟨?_, ?_, ?_⟩
  · rw [h.1]; rfl
  · rw [h.1]; rfl
  · rw [h.2.1 rfl]
    exact (h.2.2 _).2.2.2

end Script

/-! ## Draft autosave: the debounce timer -/

namespace Script

theorem atMostOnePending_cases (s : DraftState) (h : atMostOnePending s = true) :
    s.timers = [] ∨ ∃ tm, s.timers = [tm] ∧ s.t = some tm.id := by
  unfold atMostOnePending at h
  split at h
  · left; assumption
  · rename_i tm htm
    right
    exact ⟨tm, htm, by simpa using h⟩
  · exact absurd h (by simp)

theorem advanceTo_idle (json : JsonApi) (time : Nat) (s : DraftState)
    (h : s.timers = [] ∨ ∃ tm, s.timers = [tm] ∧ time < tm.due) :
    advanceTo json time s = { s with now := max s.now time } := by
  unfold advanceTo
  rcases h with h | ⟨tm, h, hlt⟩
  · simp [h]
  · have : ¬ tm.due ≤ time := by omega
    simp [h, this]

theorem advanceTo_due (json : JsonApi) (time : Nat) (s : DraftState) (tm : PendingTimer)
    (h : s.timers = [tm]) (hdue : tm.due ≤ time) :
    advanceTo json time s =
      { s with timers := [], now := max s.now time,
               storage := s.storage.setItem draftKey (draftText json s),
               writes := s.writes ++ [(max s.now tm.due, draftText json s)] } := by
  unfold advanceTo
  have hmax : max (max s.now tm.due) time = max s.now time := by omega
  simp [h, hdue, fireTimer, saveDraft, draftText, hmax]

theorem advanceTo_facts (json : JsonApi) (time : Nat) (s : DraftState)
    (hinv : atMostOnePending s = true) :
    atMostOnePending (advanceTo json time s) = true ∧
    (advanceTo json time s).writes.length + (advanceTo json time s).timers.length
      = s.writes.length + s.timers.length ∧
    (∀ f : DraftField, fieldValue (advanceTo json time s) f = fieldValue s f) ∧
    (advanceTo json time s).now = max s.now time := by
  rcases atMostOnePending_cases s hinv with h | ⟨tm, h, ht⟩
  · rw [advanceTo_idle json time s (Or.inl h)]
    refine ⟨?_, rfl, ?_, rfl⟩
    · simp [atMostOnePending, h]
    · intro f; cases f <;> rfl
  · by_cases hdue : tm.due ≤ time
    · rw [advanceTo_due json time s tm h hdue]
      refine ⟨?_, ?_, ?_, rfl⟩
      · simp [atMostOnePending]
      · simp [h]
      · intro f; cases f <;> rfl
    · rw [advanceTo_idle json time s (Or.inr ⟨tm, h, by omega⟩)]
      refine ⟨?_, rfl, ?_, rfl⟩
      · simp [atMostOnePending, h, ht]
      · intro f; cases f <;> rfl

theorem debounce_of_inv (wait : Nat) (s : DraftState) (hinv : atMostOnePending s = true) :
    debounce wait s =
      { s with timers := [⟨s.nextTimerId, s.now + wait⟩], t := some s.nextTimerId,
               nextTimerId := s.nextTimerId + 1 } := by
  have hclear : clearTimeout s.t s.timers = [] := by
    rcases atMostOnePending_cases s hinv with h | ⟨tm, h, ht⟩
    · rw [h]
      cases s.t <;> simp [clearTimeout]
    · rw [h, ht]
      simp [clearTimeout]
  simp [debounce, hclear]

theorem setField_inv (f : DraftField) (v : String) (s : DraftState) :
    atMostOnePending (setField f v s) = atMostOnePending s := by
  cases f <;> rfl

theorem fieldValue_setField (f g : DraftField) (v : String) (s : DraftState) :
    fieldValue (setField f v s) g = if g = f then some v else fieldValue s g := by
  cases f <;> cases g <;> rfl

theorem stepDraft_input_existing (json : JsonApi) (time : Nat) (f : DraftField) (v : String)
    (s : DraftState) (hinv : atMostOnePending s = true)
    (hex : (fieldValue s f).isSome = true) :
    stepDraft json (.input time f v) s =
      { setField f v (advanceTo json time s) with
          timers := [⟨(advanceTo json time s).nextTimerId, max s.now time + 300⟩],
          t := some (advanceTo json time s).nextTimerId,
          nextTimerId := (advanceTo json time s).nextTimerId + 1 } := by
  obtain ⟨hinv1, _, hfields, hnow⟩ := advanceTo_facts json time s hinv
  have hex1 : (fieldValue (advanceTo json time s) f).isSome = true := by rw [hfields]; exact hex
  have hinv2 : atMostOnePending (setField f v (advanceTo json time s)) = true := by
    rw [setField_inv]; exact hinv1
  simp only [stepDraft, hex1, if_true, saveDraftDebounced]
  rw [debounce_of_inv 300 _ hinv2]
  cases f <;> simp [setField, hnow]

theorem stepDraft_facts (json : JsonApi) (ev : DraftEvent) (s : DraftState)
    (hinv : atMostOnePending s = true) :
    atMostOnePending (stepDraft json ev s) = true ∧
    (stepDraft json ev s).writes.length + (stepDraft json ev s).timers.length
      ≤ s.writes.length + s.timers.length + (if ev.isInput then 1 else 0) ∧
    (∀ f : DraftField,
      (fieldValue (stepDraft json ev s) f).isSome = (fieldValue s f).isSome) := by
  obtain ⟨hinv1, hcount, hfields, hnow⟩ := advanceTo_facts json ev.time s hinv
  cases ev with
  | tick time =>
    refine ⟨hinv1, ?_, ?_⟩
    · simp only [stepDraft, DraftEvent.isInput, DraftEvent.time] at hcount ⊢
      omega
    · intro f
      simp only [stepDraft, DraftEvent.time] at hfields ⊢
      rw [hfields]
  | input time f v =>
    simp only [DraftEvent.time] at hinv1 hcount hfields hnow
    by_cases hex : (fieldValue s f).isSome = true
    · rw [stepDraft_input_existing json time f v s hinv hex]
      refine ⟨?_, ?_, ?_⟩
      · simp [atMostOnePending]
      · have hw : (setField f v (advanceTo json time s)).writes
            = (advanceTo json time s).writes := by cases f <;> rfl
        simp only [hw, List.length_singleton, DraftEvent.isInput, if_true]
        omega
      · intro g
        have hg : fieldValue
            { setField f v (advanceTo json time s) with
                timers := [⟨(advanceTo json time s).nextTimerId, max s.now time + 300⟩],
                t := some (advanceTo json time s).nextTimerId,
                nextTimerId := (advanceTo json time s).nextTimerId + 1 } g
            = fieldValue (setField f v (advanceTo json time s)) g := by
          cases g <;> rfl
        rw [hg, fieldValue_setField, hfields]
        by_cases hgf : g = f
        · subst hgf
          simp [hex]
        · simp [hgf]
    · have hex1 : (fieldValue (advanceTo json time s) f).isSome = false := by
        rw [hfields]; simpa using hex
      have hstep : stepDraft json (.input time f v) s = advanceTo json time s := by
        simp [stepDraft, hex1]
      rw [hstep]
      refine ⟨hinv1, ?_, ?_⟩
      · simp only [DraftEvent.isInput, if_true]
        omega
      · intro g
        rw [hfields]

theorem runDraft_facts (json : JsonApi) (evs : List DraftEvent) :
    ∀ s : DraftState, atMostOnePending s = true →
      atMostOnePending (runDraft json evs s) = true ∧
      (runDraft json evs s).writes.length + (runDraft json evs s).timers.length
        ≤ s.writes.length + s.timers.length + inputCount evs ∧
      (∀ f : DraftField,
        (fieldValue (runDraft json evs s) f).isSome = (fieldValue s f).isSome) := by
  induction evs with
  | nil =>
    intro s h
    exact ⟨h, by simp [runDraft, inputCount], fun _ => rfl⟩
  | cons ev rest ih =>
    intro s h
    obtain ⟨h1, hc1, hf1⟩ := stepDraft_facts json ev s h
    obtain ⟨h2, hc2, hf2⟩ := ih (stepDraft json ev s) h1
    have hrun : runDraft json (ev :: rest) s = runDraft json rest (stepDraft json ev s) := rfl
    rw [hrun]
    refine ⟨h2, ?_, fun f => by rw [hf2, hf1]⟩
    have hcount : inputCount (ev :: rest)
        = (if ev.isInput then 1 else 0) + inputCount rest := by
      unfold inputCount
      cases hi : ev.isInput <;> simp [List.filter_cons, hi]
      omega
    omega

theorem timers_length_le_one (s : DraftState) (h : atMostOnePending s = true) :
    s.timers.length ≤ 1 := by
  rcases atMostOnePending_cases s h with h | ⟨tm, h, _⟩ <;> simp [h]

theorem stepDraft_reschedules (json : JsonApi) (time : Nat) (f : DraftField) (v : String)
    (s : DraftState)
    (hidle : s.timers = [] ∨ ∃ tm, s.timers = [tm] ∧ s.t = some tm.id ∧ time < tm.due)
    (hnow : s.now ≤ time) (hex : (fieldValue s f).isSome = true) :
    (stepDraft json (.input time f v) s).timers = [⟨s.nextTimerId, time + 300⟩] ∧
    (stepDraft json (.input time f v) s).t = some s.nextTimerId ∧
    (stepDraft json (.input time f v) s).now = time ∧
    (stepDraft json (.input time f v) s).writes = s.writes ∧
    (stepDraft json (.input time f v) s).storage = s.storage ∧
    fieldValue (stepDraft json (.input time f v) s) f = some v := by
  have hinv : atMostOnePending s = true := by
    rcases hidle with h | ⟨tm, h, ht, _⟩
    · simp [atMostOnePending, h]
    · simp [atMostOnePending, h, ht]
  have hadv : advanceTo json time s = { s with now := max s.now time } := by
    apply advanceTo_idle
    rcases hidle with h | ⟨tm, h, _, hlt⟩
    · exact Or.inl h
    · exact Or.inr ⟨tm, h, hlt⟩
  have hmax : max s.now time = time := by omega
  rw [stepDraft_input_existing json time f v s hinv hex, hadv, hmax]
  cases f <;> simp [setField, fieldValue]

theorem targetsExisting_congr (s s2 : DraftState) (ev : DraftEvent)
    (h : ∀ f : DraftField, (fieldValue s2 f).isSome = (fieldValue s f).isSome) :
    targetsExisting s2 ev = targetsExisting s ev := by
  cases ev with
  | tick time => rfl
  | input time f v => exact h f

theorem burst_keeps_one_timer (json : JsonApi) (rest : List DraftEvent) :
    ∀ (s : DraftState) (prev id : Nat),
      s.timers = [⟨id, prev + 300⟩] → s.t = some id → s.now = prev →
      quickBurst 300 prev rest = true →
      (∀ ev ∈ rest, targetsExisting s ev = true) →
      ∃ id2, (runDraft json rest s).timers = [⟨id2, burstEnd prev rest + 300⟩] ∧
        (runDraft json rest s).t = some id2 ∧
        (runDraft json rest s).now = burstEnd prev rest ∧
        (runDraft json rest s).writes = s.writes ∧
        (runDraft json rest s).storage = s.storage := by
  induction rest with
  | nil =>
    intro s prev id htm ht hnow _ _
    exact ⟨id, htm, ht, hnow, rfl, rfl⟩
  | cons ev rest ih =>
    intro s prev id htm ht hnow hq hex
    have hinv : atMostOnePending s = true := by simp [atMostOnePending, htm, ht]
    simp only [quickBurst, Bool.and_eq_true, decide_eq_true_eq] at hq
    obtain ⟨⟨⟨hin, hle⟩, hlt⟩, hrest⟩ := hq
    have hexev := hex ev (List.mem_cons_self _ _)
    cases ev with
    | tick time => exact absurd hin (by simp [DraftEvent.isInput])
    | input time f v =>
      simp only [DraftEvent.time] at hle hlt hrest
      simp only [targetsExisting] at hexev
      obtain ⟨h1, h2, h3, h4, h5, _⟩ := stepDraft_reschedules json time f v s
        (Or.inr ⟨⟨id, prev + 300⟩, htm, ht, hlt⟩) (by omega) hexev
      have hpres := (stepDraft_facts json (.input time f v) s hinv).2.2
      obtain ⟨id2, g1, g2, g3, g4, g5⟩ := ih (stepDraft json (.input time f v) s) time
        s.nextTimerId h1 h2 h3 hrest
        (fun ev2 hev2 => by
          rw [targetsExisting_congr s _ ev2 hpres]
          exact hex ev2 (List.mem_cons_of_mem _ hev2))
      have hrun : runDraft json (.input time f v :: rest) s
          = runDraft json rest (stepDraft json (.input time f v) s) := rfl
      rw [hrun]
      exact ⟨id2, g1, g2, g3, by rw [g4, h4], by rw [g5, h5]⟩

theorem runDraft_append (json : JsonApi) (pre post : List DraftEvent) (s : DraftState) :
    runDraft json (pre ++ post) s = runDraft json post (runDraft json pre s) := by
  simp [runDraft, List.foldl_append]

theorem last_input_sets_field (json : JsonApi) (pre : List DraftEvent) (time : Nat)
    (f : DraftField) (v : String) (s : DraftState) (hinv : atMostOnePending s = true)
    (hex : (fieldValue s f).isSome = true) :
    fieldValue (runDraft json (pre ++ [.input time f v]) s) f = some v := by
  rw [runDraft_append]
  obtain ⟨hinv1, _, hpres⟩ := runDraft_facts json pre s hinv
  have hex1 : (fieldValue (runDraft json pre s) f).isSome = true := by rw [hpres]; exact hex
  have hrun : runDraft json [.input time f v] (runDraft json pre s)
      = stepDraft json (.input time f v) (runDraft json pre s) := rfl
  rw [hrun, stepDraft_input_existing json time f v _ hinv1 hex1]
  cases f <;> simp [setField, fieldValue]

/-- C8: from any state of the autosave in which at most one timer is pending
(a freshly loaded page is one), and for every sequence of events at arbitrary
times: the timer table never holds more than one entry; an `input` event on an
existing field leaves exactly one pending timer, due 300 ms after the event,
whatever was pending before; a burst of `input` events that starts with no
timer pending and in which every gap is shorter than 300 ms writes nothing
while it lasts and nothing before 300 ms after its last event, and then
exactly one draft, at that time, holding the field values left by the last
event; and the number of writes never exceeds the number of `input` events
(plus the writes and the timer the starting state already had). -/
theorem debounce_coalesces_writes (json : JsonApi) (s : DraftState)
    (hinv : atMostOnePending s = true) :
    (∀ evs : List DraftEvent, (runDraft json evs s).timers.length ≤ 1) ∧
    (∀ (time : Nat) (f : DraftField) (v : String), (fieldValue s f).isSome = true →
      ∃ id, (stepDraft json (.input time f v) s).timers = [⟨id, max s.now time + 300⟩] ∧
        (stepDraft json (.input time f v) s).t = some id) ∧
    (∀ (first : DraftEvent) (rest : List DraftEvent) (later : Nat),
      s.timers = [] → first.isInput = true → s.now ≤ first.time →
      quickBurst 300 first.time rest = true →
      (∀ ev ∈ first :: rest, targetsExisting s ev = true) →
      burstEnd first.time rest + 300 ≤ later →
      (runDraft json (first :: rest) s).writes = s.writes ∧
      (∀ early : Nat, early < burstEnd first.time rest + 300 →
        (advanceTo json early (runDraft json (first :: rest) s)).writes = s.writes) ∧
      (advanceTo json later (runDraft json (first :: rest) s)).writes
        = s.writes ++ [(burstEnd first.time rest + 300,
            draftText json (runDraft json (first :: rest) s))] ∧
      (advanceTo json later (runDraft json (first :: rest) s)).storage.getItem draftKey
        = some (draftText json (runDraft json (first :: rest) s)) ∧
      (advanceTo json later (runDraft json (first :: rest) s)).timers = [] ∧
      (∀ (pre : List DraftEvent) (time : Nat) (f : DraftField) (v : String),
        first :: rest = pre ++ [.input time f v] →
        fieldValue (runDraft json (first :: rest) s) f = some v)) ∧
    (∀ evs : List DraftEvent,
      (runDraft json evs s).writes.length + (runDraft json evs s).timers.length
        ≤ s.writes.length + s.timers.length + inputCount evs) := by
  refine ⟨?_, ?_, ?_, ?_⟩
  · intro evs
    exact timers_length_le_one _ (runDraft_facts json evs s hinv).1
  · intro time f v hex
    refine ⟨(advanceTo json time s).nextTimerId, ?_, ?_⟩
    · rw [stepDraft_input_existing json time f v s hinv hex]
    · rw [stepDraft_input_existing json time f v s hinv hex]
  · intro first rest later hnone hin hnow hq hex hlater
    cases first with
    | tick time => exact absurd hin (by simp [DraftEvent.isInput])
    | input time f v =>
      simp only [DraftEvent.time] at hnow hq hlater ⊢
      have hexf : (fieldValue s f).isSome = true := hex _ (List.mem_cons_self _ _)
      obtain ⟨h1, h2, h3, h4, h5, _⟩ :=
        stepDraft_reschedules json time f v s (Or.inl hnone) hnow hexf
      have hpres := (stepDraft_facts json (.input time f v) s hinv).2.2
      obtain ⟨id2, g1, g2, g3, g4, g5⟩ :=
        burst_keeps_one_timer json rest (stepDraft json (.input time f v) s) time
          s.nextTimerId h1 h2 h3 hq
          (fun ev2 hev2 => by
            rw [targetsExisting_congr s _ ev2 hpres]
            exact hex ev2 (List.mem_cons_of_mem _ hev2))
      have hrun : runDraft json (.input time f v :: rest) s
          = runDraft json rest (stepDraft json (.input time f v) s) := rfl
      rw [hrun]
      have hw : (runDraft json rest (stepDraft json (.input time f v) s)).writes = s.writes := by
        rw [g4, h4]
      refine ⟨hw, ?_, ?_, ?_, ?_, ?_⟩
      · intro early hearly
        rw [advanceTo_idle json early _ (Or.inr ⟨_, g1, hearly⟩)]
        exact hw
      · rw [advanceTo_due json later _ _ g1 hlater]
        simp only [hw, g3]
        have hmax : max (burstEnd time rest) (burstEnd time rest + 300)
            = burstEnd time rest + 300 := by omega
        rw [hmax]
      · rw [advanceTo_due json later _ _ g1 hlater]
        simp [Storage.getItem, Storage.setItem]
      · rw [advanceTo_due json later _ _ g1 hlater]
      · intro pre time2 f2 v2 hsplit
        have hex2 : (fieldValue s f2).isSome = true := by
          have := hex (.input time2 f2 v2) (by rw [hsplit]; simp)
          simpa [targetsExisting] using this
        have := last_input_sets_field json pre time2 f2 v2 s hinv hex2
        rw [← hsplit] at this
        exact this
  · intro evs
    exact (runDraft_facts json evs s hinv).2.1

/-- The burst of C8 on a fresh page: three edits at 10, 100 and 350 ms give one
write at 650 ms with the last values. -/
theorem debounce_coalesces_writes_witness :
    (advanceTo Sample.json 1000
      (runDraft Sample.json
        [.input 10 .name "A", .input 100 .name "An", .input 350 .email "a@x"]
        (draftFresh (some "") (some "") (some "") Storage.empty))).writes
      = [(650, Sample.stringifyDraft "An" "a@x" "")] :=
  ((debounce_coalesces_writes Sample.json
      (draftFresh (some "") (some "") (some "") Storage.empty) rfl).2.2.1
    (.input 10 .name "A") [.input 100 .name "An", .input 350 .email "a@x"] 1000
    rfl rfl (by decide) (by decide) (by decide) (by decide)).2.2.1.trans (by decide)

end Script
